import Mathlib

/-!
Shallow embedding of the OzZoo simulation engine (src/ozzoo.py).

Python floats are modelled as rationals, random draws are explicit
parameters, and in-place mutation is modelled by explicit state passing.
Python exceptions are modelled with `Except`; since an exception raised
mid-way through a tick leaves the mutations made before the raise in
place, engine-level errors carry the zoo state as it was at the moment
of the raise.  Object identity (used by `list.remove` and the observer
subscription list) is modelled through the unique integer `id` that the
source assigns to every animal from the class-level counter.
-/

/-- Custom exception taxonomy of the source: `InsufficientFundsError`,
`HabitatCapacityExceededError`, `IncompatibleSpeciesError`. -/
inductive OzErr where
  | insufficientFunds
  | capacityExceeded
  | incompatibleSpecies
deriving DecidableEq, Repr

/-- Concrete `Animal` subclasses of the source, flattened into a variant
tag: `Mammal`, `Marsupial`, `Koala`, `Kangaroo`, `Bird`,
`WedgeTailedEagle`. -/
inductive Variant where
  | mammal
  | marsupial
  | koala
  | kangaroo
  | bird
  | wedgeTailedEagle
deriving DecidableEq, Repr

/-- Per-class `accepted_food_types` (Marsupial inherits Mammal's list,
WedgeTailedEagle overrides Bird's). -/
def Variant.accepted_food_types : Variant → List String
  | .mammal => ["herbivore_food", "general_food"]
  | .marsupial => ["herbivore_food", "general_food"]
  | .koala => ["eucalyptus"]
  | .kangaroo => ["herbivore_food", "general_food"]
  | .bird => ["seeds", "meaty_food", "general_food"]
  | .wedgeTailedEagle => ["meaty_food"]

/-- Per-class `get_gestation_period_days` (WedgeTailedEagle inherits
Bird's 20). -/
def Variant.get_gestation_period_days : Variant → ℕ
  | .mammal => 60
  | .marsupial => 35
  | .koala => 34
  | .kangaroo => 30
  | .bird => 20
  | .wedgeTailedEagle => 20

/-- Python `isinstance(animal, Mammal)`, used by the aviary
compatibility check in `Enclosure.add_animal`. -/
def Variant.isMammal : Variant → Bool
  | .mammal => true
  | .marsupial => true
  | .koala => true
  | .kangaroo => true
  | .bird => false
  | .wedgeTailedEagle => false

/-- One animal.  `rawHealth`, `rawHunger`, `rawHappiness` are the
protected fields `_health`, `_hunger`, `_happiness`; they are only read
through the clamping property accessors below.  `observerRefs` is the
length of the `_observers` back-reference list (the game has one global
observer). -/
structure Animal where
  id : ℕ
  species : String
  name : String
  age : ℚ
  rawHealth : ℚ
  rawHunger : ℚ
  rawHappiness : ℚ
  sex : Char
  pregnant : Bool
  days_pregnant : ℕ
  social_needs : ℚ
  variant : Variant
  observerRefs : ℕ
deriving DecidableEq, Repr

/-- Clamping used by every stat property: `max(0.0, min(100.0, v))`. -/
def clamp (x : ℚ) : ℚ := max 0 (min 100 x)

/-- Property getter `Animal.health`. -/
def Animal.health (a : Animal) : ℚ := clamp a.rawHealth

/-- Property getter `Animal.hunger`. -/
def Animal.hunger (a : Animal) : ℚ := clamp a.rawHunger

/-- Property getter `Animal.happiness`. -/
def Animal.happiness (a : Animal) : ℚ := clamp a.rawHappiness

/-- Property setter for health.  The observer notifications fired on
threshold crossings are console prints in the source with no further
state effect, so they do not appear in the state transition. -/
def Animal.setHealth (a : Animal) (v : ℚ) : Animal := { a with rawHealth := clamp v }

/-- Property setter for hunger. -/
def Animal.setHunger (a : Animal) (v : ℚ) : Animal := { a with rawHunger := clamp v }

/-- Property setter for happiness. -/
def Animal.setHappiness (a : Animal) (v : ℚ) : Animal := { a with rawHappiness := clamp v }

/-- Polymorphic dispatch of `accepted_food_types`. -/
def Animal.accepted_food_types (a : Animal) : List String := a.variant.accepted_food_types

/-- Polymorphic dispatch of `get_gestation_period_days`. -/
def Animal.get_gestation_period_days (a : Animal) : ℕ := a.variant.get_gestation_period_days

/-- `is_alive`: `return self.health > 0` (through the clamped getter). -/
def Animal.is_alive (a : Animal) : Bool := decide ((0 : ℚ) < a.health)

/-- Food items (`Food` class). -/
structure Food where
  food_type : String
  nutrition_value : ℚ
  cost : ℚ
deriving DecidableEq, Repr

/-- `Animal.feed`.  The returned message string has no state effect and
is dropped; only the stat mutations are modelled. -/
def Animal.feed (a : Animal) (food : Food) : Animal :=
  if food.food_type ∉ a.accepted_food_types then
    let a1 := a.setHunger (a.hunger - 5)
    a1.setHappiness (a1.happiness - 5)
  else
    let hunger_reduction := food.nutrition_value
    let a1 := a.setHunger (a.hunger - hunger_reduction)
    let a2 := a1.setHappiness (a1.happiness + min 10 (hunger_reduction * (3/10)))
    a2.setHealth (a2.health + min 5 (hunger_reduction * (1/10)))

/-- Lower-casing used by the factory (`species.lower()`). -/
def strLower (s : String) : String := s.map Char.toLower

/-- Contiguous-sublist search on character lists. -/
def listInfix (pat : List Char) : List Char → Bool
  | [] => pat.isEmpty
  | c :: rest => pat.isPrefixOf (c :: rest) || listInfix pat rest

/-- Python substring test `pat in s`. -/
def strContainsSub (s pat : String) : Bool := listInfix pat.toList s.toList

/-- Python `str.title()` (capitalize each space-separated word). -/
def strTitle (s : String) : String :=
  String.intercalate (" ") ((s.splitOn (" ")).map String.capitalize)

/-- The species-keyword dispatch of `AnimalFactory.create`: canonical
species string and variant for a requested species name. -/
def speciesDispatch (species : String) : String × Variant :=
  let s := strLower species
  if strContainsSub s ("koala") then ("Koala", Variant.koala)
  else if strContainsSub s ("kangaroo") then ("Kangaroo", Variant.kangaroo)
  else if strContainsSub s ("eagle") || strContainsSub s ("wedge") then
    ("Wedge-tailed Eagle", Variant.wedgeTailedEagle)
  else (strTitle species, Variant.mammal)

/-- `AnimalFactory.create` with the default keyword arguments used on
the birth path (`name=None`, so the name defaults to `species-id`).
The class-level id counter and the `random.choice(['M','F'])` sex draw
are explicit parameters. -/
def AnimalFactory.create (species : String) (id : ℕ) (sexF : Bool) (age : ℚ) : Animal :=
  let p := speciesDispatch species
  { id := id
    species := p.1
    name := p.1 ++ "-" ++ toString id
    age := age
    rawHealth := 100
    rawHunger := 0
    rawHappiness := 100
    sex := if sexF then 'F' else 'M'
    pregnant := false
    days_pregnant := 0
    social_needs := 50
    variant := p.2
    observerRefs := 0 }

/-- `Animal.give_birth`: one factory-made offspring of the same species
with happiness and health both set to 80 through the setters. -/
def Animal.give_birth (a : Animal) (babyId : ℕ) (babySexF : Bool) : Animal :=
  let baby := AnimalFactory.create a.species babyId babySexF 0
  let baby := baby.setHappiness 80
  baby.setHealth 80

/-- `daily_update` statements 1-2: `self.age += 1/365` and
`self.hunger += random.uniform(5, 15)` with the draw `u` explicit. -/
def Animal.stepAgeHunger (a : Animal) (u : ℚ) : Animal :=
  let b := { a with age := a.age + 1/365 }
  b.setHunger (b.hunger + u)

/-- `daily_update` statement 3: happiness drops when hungry. -/
def Animal.stepHappinessFromHunger (a : Animal) : Animal :=
  if a.hunger > 50 then a.setHappiness (a.happiness - (a.hunger - 50) * (1/10)) else a

/-- `daily_update` statement 4: health declines when very hungry, else
regenerates slightly when well fed and happy. -/
def Animal.stepHealthFromHunger (a : Animal) : Animal :=
  if a.hunger > 80 then a.setHealth (a.health - (a.hunger - 80) * (1/2))
  else if a.hunger < 30 ∧ a.happiness > 60 then a.setHealth (a.health + 1/2)
  else a

/-- `daily_update` statement 5: social-needs penalty. -/
def Animal.stepSocial (a : Animal) : Animal :=
  if a.social_needs < 30 then a.setHappiness (a.happiness - 1) else a

/-- The non-reproductive part of `Animal.daily_update`: the statements
above in source order, each reading the state left by the previous
one. -/
def Animal.physStep (a : Animal) (u : ℚ) : Animal :=
  (((a.stepAgeHunger u).stepHappinessFromHunger).stepHealthFromHunger).stepSocial

/-- `Animal.daily_update`: physiology step, then pregnancy progression;
returns the updated animal and the optional newborn.  `babyId` and
`babySexF` feed the id counter and sex draw of the construction that
happens inside `give_birth`. -/
def Animal.daily_update (a : Animal) (u : ℚ) (babyId : ℕ) (babySexF : Bool) :
    Animal × Option Animal :=
  let b := a.physStep u
  if b.pregnant then
    let b1 := { b with days_pregnant := b.days_pregnant + 1 }
    if b1.days_pregnant ≥ b1.get_gestation_period_days then
      let b2 := { b1 with pregnant := false, days_pregnant := 0 }
      (b2, some (b2.give_birth babyId babySexF))
    else (b1, none)
  else (b, none)

/-- `Animal.attempt_breed_with`.  `draw` is the single `random.random()`
draw made when all the prerequisites hold. -/
def Animal.attempt_breed_with (a partner : Animal) (draw : ℚ) :
    Except OzErr (Bool × Animal × Animal) :=
  if a.species ≠ partner.species then Except.error OzErr.incompatibleSpecies
  else if a.sex = partner.sex then Except.ok (false, a, partner)
  else if a.health < 60 ∨ partner.health < 60 then Except.ok (false, a, partner)
  else if a.happiness < 50 ∨ partner.happiness < 50 then Except.ok (false, a, partner)
  else if a.pregnant ∨ partner.pregnant then Except.ok (false, a, partner)
  else if draw < (a.happiness + partner.happiness) / 200 then
    if a.sex = 'F' then
      Except.ok (true, { a with pregnant := true, days_pregnant := 0 }, partner)
    else
      Except.ok (true, a, { partner with pregnant := true, days_pregnant := 0 })
  else Except.ok (false, a, partner)

/-- `FinanceManager`: balance plus separate income and expense
histories. -/
structure FinanceManager where
  balance : ℚ
  income_history : List (ℚ × String)
  expense_history : List (ℚ × String)
deriving DecidableEq, Repr

/-- `FinanceManager.add_income`: unconditional credit. -/
def FinanceManager.add_income (fm : FinanceManager) (amount : ℚ) (reason : String) :
    FinanceManager :=
  { fm with
    balance := fm.balance + amount
    income_history := fm.income_history ++ [(amount, reason)] }

/-- `FinanceManager.add_expense`: guarded debit, rejected before any
mutation when the amount exceeds the balance. -/
def FinanceManager.add_expense (fm : FinanceManager) (amount : ℚ) (reason : String) :
    Except OzErr FinanceManager :=
  if amount > fm.balance then Except.error OzErr.insufficientFunds
  else
    Except.ok
      { fm with
        balance := fm.balance - amount
        expense_history := fm.expense_history ++ [(amount, reason)] }

/-- `Enclosure`. -/
structure Enclosure where
  name : String
  capacity : ℕ
  habitat_type : String
  cleanliness : ℚ
  animals : List Animal
  upgrade_level : ℕ
deriving DecidableEq, Repr

/-- `Enclosure.add_animal`: capacity check first, then the
aviary/mammal compatibility check, then append. -/
def Enclosure.add_animal (e : Enclosure) (a : Animal) : Except OzErr Enclosure :=
  if e.animals.length ≥ e.capacity then Except.error OzErr.capacityExceeded
  else if e.habitat_type = "aviary" ∧ a.variant.isMammal then
    Except.error OzErr.incompatibleSpecies
  else Except.ok { e with animals := e.animals ++ [a] }

/-- Identity-based `list.remove` on animal lists, modelled through the
unique id: removes the first element with the given id, no-op if
absent. -/
def removeById : List Animal → ℕ → List Animal
  | [], _ => []
  | x :: xs, i => if x.id = i then xs else x :: removeById xs i

/-- `Enclosure.remove_animal` (removes if present, no-op otherwise). -/
def Enclosure.remove_animal (e : Enclosure) (i : ℕ) : Enclosure :=
  { e with animals := removeById e.animals i }

/-- `Enclosure.daily_maintenance`: cleanliness drops by 0.5 per
resident (unclamped), and when the new cleanliness is below 30 every
resident loses 1 happiness and 0.3 health. -/
def Enclosure.daily_maintenance (e : Enclosure) : Enclosure :=
  let c := e.cleanliness - (e.animals.length : ℚ) * (1/2)
  if c < 30 then
    { e with
      cleanliness := c
      animals := e.animals.map (fun a =>
        let a1 := a.setHappiness (a.happiness - 1)
        a1.setHealth (a1.health - (3/10))) }
  else { e with cleanliness := c }

/-- `Enclosure.clean`. -/
def Enclosure.clean (e : Enclosure) : Enclosure := { e with cleanliness := 100 }

/-- `Enclosure.upgrade`. -/
def Enclosure.upgrade (e : Enclosure) : Enclosure :=
  { e with
    upgrade_level := e.upgrade_level + 1
    capacity := e.capacity + 2
    animals := e.animals.map (fun a => a.setHappiness (a.happiness + 5)) }

/-- In-place mutation of one animal held inside a resident list: every
occurrence of the object (identified by id) sees the update. -/
def replaceById (l : List Animal) (a : Animal) : List Animal :=
  l.map (fun x => if x.id = a.id then a else x)

/-- Lookup in a Python dict modelled as an association list
(`d.get(k, 0)`). -/
def dictGet (inv : List (String × ℤ)) (k : String) : ℤ :=
  match inv.find? (fun p => p.1 == k) with
  | some p => p.2
  | none => 0

/-- Update of a Python dict modelled as an association list. -/
def dictSet (inv : List (String × ℤ)) (k : String) (v : ℤ) : List (String × ℤ) :=
  match inv with
  | [] => [(k, v)]
  | p :: rest => if p.1 == k then (k, v) :: rest else p :: dictSet rest k v

/-- The zoo.  `observerSubs` is the global `HealthObserver`'s
`subscriptions` list, holding animal ids (Python holds the objects;
membership is identity-based).  `next_id` is the class-level
`Animal._id_counter`. -/
structure Zoo where
  name : String
  enclosures : List Enclosure
  food_inventory : List (String × ℤ)
  medicine_inventory : List (String × ℤ)
  finance_manager : FinanceManager
  observerSubs : List ℕ
  daily_ticket_price : ℚ
  day : ℕ
  event_log : List String
  next_id : ℕ
deriving DecidableEq, Repr

/-- `Zoo.log_event`: appends `"Day {day}: {text}"` to the event log
(the console print has no state effect). -/
def Zoo.log_event (z : Zoo) (text : String) : Zoo :=
  { z with event_log := z.event_log ++ ["Day " ++ toString z.day ++ ": " ++ text] }

/-- The random draws consumed by one `daily_operations` tick, indexed
in consumption order: per-visitor budget/enclosure-choice/spend-factor
draws, per-animal hunger increments, per-birth sex draws, and the
single random-event roll with its band-specific follow-up draws.
Choices from lists (`random.choice`) are modelled as index draws. -/
structure TickDraws where
  visitorCount : ℕ
  visitorBudget : ℕ → ℚ
  visitorEnc : ℕ → ℕ
  visitorSpendFactor : ℕ → ℚ
  hungerInc : ℕ → ℚ
  babySexF : ℕ → Bool
  eventRoll : ℚ
  donationAmount : ℚ
  escapeEncIdx : ℕ
  escapeAnimalIdx : ℕ

/-- `Visitor.visit_enclosure` reduced to its only externally visible
effect: the spend it returns.  The visitor starts at satisfaction 70,
adjusts it from average resident happiness (defaulting to 50 for an
empty enclosure) and cleanliness, and spends
`max(0, min(budget, factor * satisfaction / 100))` where `factor` is
the `uniform(5, 25)` draw. -/
def Visitor.visit_spend (budget : ℚ) (e : Enclosure) (factor : ℚ) : ℚ :=
  let avg_happiness :=
    if e.animals.length = 0 then 50
    else ((e.animals.map Animal.happiness).sum) / (e.animals.length : ℚ)
  let satisfaction := 70 + (avg_happiness - 50) / 20 + (e.cleanliness - 50) / 50
  max 0 (min budget (factor * (satisfaction / 100)))

/-- Spend of the k-th visitor of the wave (visitors read but never
mutate the enclosures, so they see the same zoo). -/
def Zoo.visitorSpend (z : Zoo) (d : TickDraws) (k : ℕ) : ℚ :=
  match z.enclosures.get? (d.visitorEnc k) with
  | some e => Visitor.visit_spend (d.visitorBudget k) e (d.visitorSpendFactor k)
  | none => 0

/-- Total spend of the first n visitors. -/
def Zoo.waveSpend (z : Zoo) (d : TickDraws) : ℕ → ℚ
  | 0 => 0
  | n + 1 => z.waveSpend d n + z.visitorSpend d n

/-- The visitor wave of `daily_operations`: total spend plus ticket
income, credited as one income entry, then the day-summary log line. -/
def Zoo.visitorPhase (z : Zoo) (d : TickDraws) : Zoo :=
  let revenue := z.waveSpend d d.visitorCount + (d.visitorCount : ℚ) * z.daily_ticket_price
  let z1 := { z with finance_manager := z.finance_manager.add_income revenue ("Daily visitors & sales") }
  z1.log_event ("Day " ++ toString z1.day ++ ": " ++ toString d.visitorCount ++
    " visitors -> $" ++ toString revenue ++ " revenue")

/-- Zoo-level mutable state threaded through the per-enclosure pass:
food inventory, observer subscriptions, event log, the animal id
counter, and the cursors into the hunger-increment and baby-sex draw
streams.  `day` is the (tick-constant) day used for log prefixes. -/
structure LoopSt where
  inv : List (String × ℤ)
  subs : List ℕ
  log : List String
  nextId : ℕ
  uIdx : ℕ
  bIdx : ℕ
  day : ℕ

/-- Append one `log_event` line to the threaded state. -/
def stLog (st : LoopSt) (text : String) : LoopSt :=
  { st with log := st.log ++ ["Day " ++ toString st.day ++ ": " ++ text] }

/-- Death log line. -/
def deathMsg (a : Animal) : String :=
  a.name ++ " (" ++ a.species ++ ") died due to poor health."

/-- Auto-feed search: first accepted food kind with positive stock. -/
def findFood (inv : List (String × ℤ)) : List String → Option String
  | [] => none
  | ft :: rest => if dictGet inv ft > 0 then some ft else findFood inv rest

/-- The death check performed at the end of each resident's turn:
`if not a.is_alive(): enc.remove_animal(a); log`. -/
def deathPrune (cur : List Animal) (st : LoopSt) (a2 : Animal) : List Animal × LoopSt :=
  if a2.is_alive then (cur, st) else (removeById cur a2.id, stLog st (deathMsg a2))

/-- One resident's auto-feed (or the +5 hunger penalty when no
accepted kind is stocked) followed by its `daily_update`: returns the
updated inventory, the mutated animal, and the optional newborn. -/
def stepResident (d : TickDraws) (st : LoopSt) (a : Animal) :
    List (String × ℤ) × Animal × Option Animal :=
  let fd := findFood st.inv a.accepted_food_types
  let inv1 :=
    match fd with
    | some ft => dictSet st.inv ft (dictGet st.inv ft - 1)
    | none => st.inv
  let a1 :=
    match fd with
    | some ft => a.feed { food_type := ft, nutrition_value := 20, cost := 0 }
    | none => a.setHunger (a.hunger + 5)
  let upd := a1.daily_update (d.hungerInc st.uIdx) st.nextId (d.babySexF st.bIdx)
  (inv1, upd.1, upd.2)

/-- One full turn of the per-resident loop body for a single resident:
in-place mutation of the live list, newborn placement (capacity
failure caught and logged, aviary-mammal incompatibility uncaught),
newborn observer subscription, and the death check.  `cur` is the live
resident list, `a` the snapshot value being processed. -/
def processOne (d : TickDraws) (cap : ℕ) (ht ename : String) (cur : List Animal)
    (st : LoopSt) (a : Animal) :
    Except (OzErr × List Animal × LoopSt) (List Animal × LoopSt) :=
  let r := stepResident d st a
  let a2 := r.2.1
  let cur1 := replaceById cur a2
  let st1 : LoopSt := { st with inv := r.1, uIdx := st.uIdx + 1 }
  match r.2.2 with
  | none => Except.ok (deathPrune cur1 st1 a2)
  | some b =>
    let st2 : LoopSt := { st1 with nextId := st1.nextId + 1, bIdx := st1.bIdx + 1 }
    if cur1.length ≥ cap then
      let st3 := stLog st2 ("A newborn couldn\x27t be placed and sadly didn\x27t survive.")
      Except.ok (deathPrune cur1 st3 a2)
    else if ht = "aviary" ∧ b.variant.isMammal then
      Except.error (OzErr.incompatibleSpecies, cur1, st2)
    else
      let cur2 := cur1 ++ [b]
      let subs1 := if b.id ∈ st2.subs then st2.subs else st2.subs ++ [b.id]
      let cur3 :=
        if b.id ∈ st2.subs then cur2
        else replaceById cur2 { b with observerRefs := b.observerRefs + 1 }
      let st3 := stLog { st2 with subs := subs1 }
        ("New birth! A " ++ b.species ++ " named " ++ b.name ++ " was born in " ++ ename ++ ".")
      Except.ok (deathPrune cur3 st3 a2)

/-- The per-resident loop of `daily_operations` for one enclosure.
The first list is the iteration snapshot (`list(enc.animals)`), the
second the live resident list.  An uncaught error from a resident's
turn propagates with the state at the raise. -/
def processAnimals (d : TickDraws) (cap : ℕ) (ht ename : String) :
    List Animal → List Animal → LoopSt →
    Except (OzErr × List Animal × LoopSt) (List Animal × LoopSt)
  | [], cur, st => Except.ok (cur, st)
  | a :: rest, cur, st =>
    match processOne d cap ht ename cur st a with
    | Except.error e => Except.error e
    | Except.ok (cur1, st1) => processAnimals d cap ht ename rest cur1 st1

/-- The per-enclosure pass: maintenance, then the resident loop, in
registration order.  Errors carry the partially processed enclosure
list. -/
def processEnclosures (d : TickDraws) :
    List Enclosure → LoopSt →
    Except (OzErr × List Enclosure × LoopSt) (List Enclosure × LoopSt)
  | [], st => Except.ok ([], st)
  | e :: rest, st =>
    let e1 := e.daily_maintenance
    match processAnimals d e1.capacity e1.habitat_type e1.name e1.animals e1.animals st with
    | Except.error (err, curE, stE) =>
      Except.error (err, { e1 with animals := curE } :: rest, stE)
    | Except.ok (cur, st1) =>
      match processEnclosures d rest st1 with
      | Except.error (err, restE, stE) =>
        Except.error (err, { e1 with animals := cur } :: restE, stE)
      | Except.ok (rest1, st2) => Except.ok ({ e1 with animals := cur } :: rest1, st2)

/-- Reassemble the zoo from the threaded pass state. -/
def Zoo.rebuild (z : Zoo) (encs : List Enclosure) (st : LoopSt) : Zoo :=
  { z with
    enclosures := encs
    food_inventory := st.inv
    observerSubs := st.subs
    event_log := st.log
    next_id := st.nextId }

/-- The animal-update phase of `daily_operations` over all
enclosures. -/
def Zoo.enclosurePhase (z : Zoo) (d : TickDraws) : Except (OzErr × Zoo) Zoo :=
  let st0 : LoopSt :=
    { inv := z.food_inventory, subs := z.observerSubs, log := z.event_log
      nextId := z.next_id, uIdx := 0, bIdx := 0, day := z.day }
  match processEnclosures d z.enclosures st0 with
  | Except.error (err, encs, st) => Except.error (err, z.rebuild encs st)
  | Except.ok (encs, st) => Except.ok (z.rebuild encs st)

/-- `Zoo.handle_random_events`.  `r` is the single `random.random()`
roll; `don` the `uniform(100, 500)` donation draw; `i`, `j` the
`random.choice` index draws for the escape band.  The heatwave debit is
unguarded, so its failure propagates (carrying the state already
mutated by the heatwave); the escape repair debit failure is swallowed
by `except InsufficientFundsError: pass`. -/
def Zoo.handle_random_events (z : Zoo) (r don : ℚ) (i j : ℕ) : Except (OzErr × Zoo) Zoo :=
  if r < 6/100 then
    let encs := z.enclosures.map (fun e =>
      { e with
        cleanliness := e.cleanliness - 15
        animals := e.animals.map (fun a => a.setHappiness (a.happiness - 10)) })
    let z1 := { z with enclosures := encs }
    match z1.finance_manager.add_expense 200 ("Heatwave emergency cooling") with
    | Except.error err => Except.error (err, z1)
    | Except.ok fm =>
      Except.ok (({ z1 with finance_manager := fm }).log_event
        ("Heatwave: animals are stressed; cooling expenses paid."))
  else if r < 12/100 then
    if z.finance_manager.balance > 1000 then
      Except.ok (({ z with finance_manager := z.finance_manager.add_income don ("Donation") }).log_event
        ("A generous donor gave $" ++ toString don ++ "!"))
    else Except.ok z
  else if r < 18/100 then
    match z.enclosures.get? i with
    | none => Except.ok z
    | some e =>
      match e.animals.get? j with
      | none => Except.ok z
      | some a =>
        let a1 := a.setHappiness (a.happiness - 20)
        let z1 := { z with enclosures := z.enclosures.set i { e with animals := e.animals.set j a1 } }
        let z2 := z1.log_event (a.name ++ " had an escape scare and is stressed.")
        match z2.finance_manager.add_expense 50 ("Escape incident repairs") with
        | Except.error _ => Except.ok z2
        | Except.ok fm => Except.ok { z2 with finance_manager := fm }
  else Except.ok z

/-- `Zoo.daily_operations` (the `AdvanceDay` tick): visitor wave,
per-enclosure pass, random events, then the day-counter increment,
which is skipped when an exception propagates. -/
def Zoo.daily_operations (z : Zoo) (d : TickDraws) : Except (OzErr × Zoo) Zoo :=
  match (z.visitorPhase d).enclosurePhase d with
  | Except.error p => Except.error p
  | Except.ok z2 =>
    match z2.handle_random_events d.eventRoll d.donationAmount d.escapeEncIdx d.escapeAnimalIdx with
    | Except.error p => Except.error p
    | Except.ok z3 => Except.ok { z3 with day := z3.day + 1 }

/-! ### Basic facts about the clamping accessors -/

lemma clamp_nonneg (x : ℚ) : 0 ≤ clamp x := le_max_left 0 _

lemma clamp_le_hundred (x : ℚ) : clamp x ≤ 100 :=
  max_le (by norm_num) (min_le_left _ _)

lemma clamp_eq_of (x : ℚ) (h0 : 0 ≤ x) (h1 : x ≤ 100) : clamp x = x := by
  rw [clamp, min_eq_right h1, max_eq_right h0]

lemma clamp_clamp (x : ℚ) : clamp (clamp x) = clamp x :=
  clamp_eq_of _ (clamp_nonneg x) (clamp_le_hundred x)

lemma clamp_pos (x : ℚ) : 0 < clamp x ↔ 0 < x := by
  constructor
  · intro h
    by_contra hx
    push_neg at hx
    have : clamp x ≤ 0 := by
      rw [clamp]
      exact max_le le_rfl (le_trans (min_le_right _ _) hx)
    linarith
  · intro h
    rw [clamp, lt_max_iff, lt_min_iff]
    right
    exact ⟨by norm_num, h⟩

lemma health_setHealth (a : Animal) (v : ℚ) : (a.setHealth v).health = clamp v := by
  simp [Animal.setHealth, Animal.health, clamp_clamp]

lemma hunger_setHunger (a : Animal) (v : ℚ) : (a.setHunger v).hunger = clamp v := by
  simp [Animal.setHunger, Animal.hunger, clamp_clamp]

lemma happiness_setHappiness (a : Animal) (v : ℚ) : (a.setHappiness v).happiness = clamp v := by
  simp [Animal.setHappiness, Animal.happiness, clamp_clamp]

/-! ### Claim C3 -/

/-- Claim C3: for every creature — hence after any sequence of
mutating operations (construction, feed, daily update, medicine,
habitat maintenance, upgrades, random events), each of which produces
some `Animal` value — the health, hunger and happiness values read
through the property accessors lie in [0, 100]. -/
theorem c3_stats_clamped (a : Animal) :
    (0 ≤ a.health ∧ a.health ≤ 100) ∧
    (0 ≤ a.hunger ∧ a.hunger ≤ 100) ∧
    (0 ≤ a.happiness ∧ a.happiness ≤ 100) :=
  ⟨⟨clamp_nonneg _, clamp_le_hundred _⟩, ⟨clamp_nonneg _, clamp_le_hundred _⟩,
    ⟨clamp_nonneg _, clamp_le_hundred _⟩⟩

/-! ### Claim C2 -/

/-- Claim C2: `add_expense` fails with `InsufficientFunds` exactly when
the amount exceeds the balance; on failure the manager is returned to
the caller unchanged (the functional model raises before any
mutation), and on success the balance is exactly `balance - amount`,
the pair `(amount, reason)` is appended to the expense history, and
the income history is untouched. -/
theorem c2_add_expense (fm : FinanceManager) (amount : ℚ) (reason : String) :
    (fm.add_expense amount reason = Except.error OzErr.insufficientFunds ↔
      fm.balance < amount) ∧
    (amount ≤ fm.balance →
      fm.add_expense amount reason =
        Except.ok
          { balance := fm.balance - amount
            income_history := fm.income_history
            expense_history := fm.expense_history ++ [(amount, reason)] }) := by
  constructor
  · by_cases h : amount > fm.balance
    · simp [FinanceManager.add_expense, h]
    · simp [FinanceManager.add_expense, h]
  · intro hle
    have h : ¬ amount > fm.balance := not_lt.mpr hle
    simp [FinanceManager.add_expense, h]

/-- Witness for C2 at the spec's own scenario: balance 100, a 150
debit fails with `InsufficientFunds`, a 50 debit succeeds leaving
balance 50 with the entry appended. -/
theorem c2_add_expense_witness :
    (FinanceManager.add_expense ⟨100, [], []⟩ 150 ("rent") =
      Except.error OzErr.insufficientFunds) ∧
    (FinanceManager.add_expense ⟨100, [], []⟩ 50 ("rent") =
      Except.ok ⟨50, [], [(50, "rent")]⟩) :=
  ⟨(c2_add_expense ⟨100, [], []⟩ 150 ("rent")).1.mpr (by norm_num),
    by
      have h := (c2_add_expense ⟨100, [], []⟩ 50 ("rent")).2 (by norm_num)
      norm_num at h
      exact h⟩

/-! ### Claim C6 -/

lemma happiness_setHunger (a : Animal) (v : ℚ) : (a.setHunger v).happiness = a.happiness := rfl

lemma health_setHunger (a : Animal) (v : ℚ) : (a.setHunger v).health = a.health := rfl

lemma health_setHappiness (a : Animal) (v : ℚ) : (a.setHappiness v).health = a.health := rfl

lemma hunger_setHappiness (a : Animal) (v : ℚ) : (a.setHappiness v).hunger = a.hunger := rfl

lemma hunger_setHealth (a : Animal) (v : ℚ) : (a.setHealth v).hunger = a.hunger := rfl

lemma happiness_setHealth (a : Animal) (v : ℚ) : (a.setHealth v).happiness = a.happiness := rfl

/-- Claim C6: feeding a food kind outside the accepted set lowers
hunger and happiness by exactly 5 each (clamped at 0; the 100-clamp
cannot bite on a decrease) and leaves health exactly unchanged — in
particular it never increases; feeding an accepted kind lowers hunger
by the nutrition value, raises happiness by `min(10, nutrition*0.3)`
and health by `min(5, nutrition*0.1)`, all under the [0,100] clamp. -/
theorem c6_feed (a : Animal) (f : Food) :
    (f.food_type ∉ a.accepted_food_types →
      (a.feed f).hunger = max 0 (a.hunger - 5) ∧
      (a.feed f).happiness = max 0 (a.happiness - 5) ∧
      (a.feed f).health = a.health) ∧
    (f.food_type ∈ a.accepted_food_types →
      (a.feed f).hunger = clamp (a.hunger - f.nutrition_value) ∧
      (a.feed f).happiness = clamp (a.happiness + min 10 (f.nutrition_value * (3/10))) ∧
      (a.feed f).health = clamp (a.health + min 5 (f.nutrition_value * (1/10)))) := by
  have hclamp : ∀ y : ℚ, y ≤ 100 → clamp (y - 5) = max 0 (y - 5) := by
    intro y hy
    rw [clamp, min_eq_right (by linarith)]
  constructor
  · intro h
    refine ⟨?_, ?_, ?_⟩
    · simp [Animal.feed, h, hunger_setHappiness, hunger_setHunger]
      exact hclamp _ (clamp_le_hundred _)
    · simp [Animal.feed, h, happiness_setHappiness, happiness_setHunger]
      exact hclamp _ (clamp_le_hundred _)
    · simp [Animal.feed, h, health_setHappiness, health_setHunger]
  · intro h
    have h2 : ¬ f.food_type ∉ a.accepted_food_types := by simp [h]
    refine ⟨?_, ?_, ?_⟩
    · simp [Animal.feed, h2, hunger_setHealth, hunger_setHappiness, hunger_setHunger]
    · simp [Animal.feed, h2, happiness_setHealth, happiness_setHappiness, happiness_setHunger]
    · simp [Animal.feed, h2, health_setHealth, health_setHappiness, health_setHunger]

/-! ### Claim C7 -/

/-- Claim C7: `add_animal` into a habitat already holding
capacity-many residents fails with `CapacityExceeded`; into an aviary
with room it fails with `IncompatibleSpecies` for any Mammal-variant
creature; otherwise it appends the creature.  In the failing cases the
functional model returns an error without a new enclosure, so the
resident list is left unchanged. -/
theorem c7_add_animal (e : Enclosure) (a : Animal) :
    (e.animals.length = e.capacity → e.add_animal a = Except.error OzErr.capacityExceeded) ∧
    (e.animals.length < e.capacity → e.habitat_type = "aviary" → a.variant.isMammal = true →
      e.add_animal a = Except.error OzErr.incompatibleSpecies) ∧
    (e.animals.length < e.capacity → ¬(e.habitat_type = "aviary" ∧ a.variant.isMammal = true) →
      e.add_animal a = Except.ok { e with animals := e.animals ++ [a] }) := by
  refine ⟨?_, ?_, ?_⟩
  · intro h
    simp [Enclosure.add_animal, h]
  · intro h1 h2 h3
    have hh : ¬ e.animals.length ≥ e.capacity := not_le.mpr h1
    simp [Enclosure.add_animal, hh, h2, h3]
  · intro h1 h2
    have hh : ¬ e.animals.length ≥ e.capacity := not_le.mpr h1
    simp only [Enclosure.add_animal, if_neg hh, if_neg h2]

/-- A concrete Koala (a Mammal variant) used by witnesses. -/
def koalaW : Animal :=
  { id := 5, species := "Koala", name := "Kiki", age := 2, rawHealth := 100, rawHunger := 0,
    rawHappiness := 100, sex := 'F', pregnant := false, days_pregnant := 0,
    social_needs := 50, variant := Variant.koala, observerRefs := 1 }

/-- A concrete eagle (not a Mammal variant) used by witnesses. -/
def eagleW : Animal :=
  { id := 6, species := "Wedge-tailed Eagle", name := "Aerie", age := 5, rawHealth := 100,
    rawHunger := 0, rawHappiness := 100, sex := 'M', pregnant := false, days_pregnant := 0,
    social_needs := 50, variant := Variant.wedgeTailedEagle, observerRefs := 1 }

/-- A full one-slot grassland enclosure. -/
def fullEncW : Enclosure :=
  { name := "Grassland Enclosure", capacity := 1, habitat_type := "grassland",
    cleanliness := 100, animals := [eagleW], upgrade_level := 1 }

/-- An empty aviary. -/
def aviaryW : Enclosure :=
  { name := "Aviary", capacity := 6, habitat_type := "aviary",
    cleanliness := 100, animals := [], upgrade_level := 1 }

/-- Witness for C7: a full enclosure rejects with `CapacityExceeded`,
the aviary rejects a koala with `IncompatibleSpecies`, and the aviary
accepts an eagle by appending it. -/
theorem c7_add_animal_witness :
    (fullEncW.add_animal koalaW = Except.error OzErr.capacityExceeded) ∧
    (aviaryW.add_animal koalaW = Except.error OzErr.incompatibleSpecies) ∧
    (aviaryW.add_animal eagleW = Except.ok { aviaryW with animals := [eagleW] }) :=
  ⟨(c7_add_animal fullEncW koalaW).1 (by decide),
    (c7_add_animal aviaryW koalaW).2.1 (by decide) (by decide) (by decide),
    by
      have h := (c7_add_animal aviaryW eagleW).2.2 (by decide) (by decide)
      simpa using h⟩

/-! ### Claim C4 -/

/-- Claim C4: `attempt_breed_with` raises `IncompatibleSpeciesError`
exactly when the species differ; with equal species it returns false
(no error, no mutation) when the sexes are equal, either health is
below 60, either happiness is below 50, or either partner is already
pregnant; otherwise the single random draw decides: success exactly
when `draw < (happiness_self + happiness_partner)/200`, in which case
the female parent is marked pregnant with days-pregnant reset to 0 and
the call returns true, else it returns false. -/
theorem c4_attempt_breed (a b : Animal) (r : ℚ) :
    (a.attempt_breed_with b r = Except.error OzErr.incompatibleSpecies ↔
      a.species ≠ b.species) ∧
    (a.species = b.species →
      (a.sex = b.sex ∨ a.health < 60 ∨ b.health < 60 ∨ a.happiness < 50 ∨ b.happiness < 50 ∨
        a.pregnant = true ∨ b.pregnant = true) →
      a.attempt_breed_with b r = Except.ok (false, a, b)) ∧
    (a.species = b.species → a.sex ≠ b.sex → 60 ≤ a.health → 60 ≤ b.health →
      50 ≤ a.happiness → 50 ≤ b.happiness → a.pregnant = false → b.pregnant = false →
      (r < (a.happiness + b.happiness) / 200 →
        a.attempt_breed_with b r =
          Except.ok (true,
            if a.sex = 'F' then ({ a with pregnant := true, days_pregnant := 0 }, b)
            else (a, { b with pregnant := true, days_pregnant := 0 }))) ∧
      ((a.happiness + b.happiness) / 200 ≤ r →
        a.attempt_breed_with b r = Except.ok (false, a, b))) := by
  refine ⟨?_, ?_, ?_⟩
  · by_cases hs : a.species = b.species
    · unfold Animal.attempt_breed_with
      rw [if_neg (not_ne_iff.mpr hs)]
      constructor
      · intro h
        exfalso
        split_ifs at h
      · intro h
        exact absurd hs h
    · unfold Animal.attempt_breed_with
      rw [if_pos hs]
      simp [hs]
  · intro hs hcase
    unfold Animal.attempt_breed_with
    rw [if_neg (not_ne_iff.mpr hs)]
    split_ifs <;> first
      | rfl
      | (exfalso; tauto)
  · intro hs hsex hha hhb hfa hfb hga hgb
    unfold Animal.attempt_breed_with
    rw [if_neg (not_ne_iff.mpr hs), if_neg hsex,
      if_neg (show ¬(a.health < 60 ∨ b.health < 60) by push_neg; exact ⟨hha, hhb⟩),
      if_neg (show ¬(a.happiness < 50 ∨ b.happiness < 50) by push_neg; exact ⟨hfa, hfb⟩),
      if_neg (show ¬(a.pregnant = true ∨ b.pregnant = true) by simp [hga, hgb])]
    constructor
    · intro hr
      rw [if_pos hr]
      split_ifs <;> rfl
    · intro hr
      rw [if_neg (not_lt.mpr hr)]

/-- A male Koala partner for the breeding witness. -/
def koalaMW : Animal :=
  { id := 7, species := "Koala", name := "Koko", age := 3, rawHealth := 100, rawHunger := 0,
    rawHappiness := 100, sex := 'M', pregnant := false, days_pregnant := 0,
    social_needs := 50, variant := Variant.koala, observerRefs := 1 }

/-- Witness for C4: an eligible opposite-sex koala pair with a draw
below the 100% chance succeeds and marks the female pregnant; a
koala-eagle pair raises the species mismatch. -/
theorem c4_attempt_breed_witness :
    (koalaW.attempt_breed_with koalaMW (1/10) =
      Except.ok (true, { koalaW with pregnant := true, days_pregnant := 0 }, koalaMW)) ∧
    (koalaW.attempt_breed_with eagleW 0 = Except.error OzErr.incompatibleSpecies) :=
  ⟨by
    have h := ((c4_attempt_breed koalaW koalaMW (1/10)).2.2 rfl (by decide)
      (by norm_num [koalaW, Animal.health, clamp]) (by norm_num [koalaMW, Animal.health, clamp])
      (by norm_num [koalaW, Animal.happiness, clamp])
      (by norm_num [koalaMW, Animal.happiness, clamp]) rfl rfl).1
      (by norm_num [koalaW, koalaMW, Animal.happiness, clamp])
    simpa using h,
    (c4_attempt_breed koalaW eagleW 0).1.mpr (by decide)⟩

/-! ### Equation and preservation lemmas for the engine -/

lemma processAnimals_nil (d : TickDraws) (cap : ℕ) (ht en : String) (cur : List Animal)
    (st : LoopSt) : processAnimals d cap ht en [] cur st = Except.ok (cur, st) := rfl

lemma processAnimals_cons (d : TickDraws) (cap : ℕ) (ht en : String) (a : Animal)
    (rest cur : List Animal) (st : LoopSt) :
    processAnimals d cap ht en (a :: rest) cur st =
      match processOne d cap ht en cur st a with
      | Except.error e => Except.error e
      | Except.ok (cur1, st1) => processAnimals d cap ht en rest cur1 st1 := rfl

lemma processEnclosures_nil (d : TickDraws) (st : LoopSt) :
    processEnclosures d [] st = Except.ok ([], st) := rfl

lemma processEnclosures_cons (d : TickDraws) (e : Enclosure) (rest : List Enclosure)
    (st : LoopSt) :
    processEnclosures d (e :: rest) st =
      (let e1 := e.daily_maintenance
       match processAnimals d e1.capacity e1.habitat_type e1.name e1.animals e1.animals st with
       | Except.error (err, curE, stE) =>
         Except.error (err, { e1 with animals := curE } :: rest, stE)
       | Except.ok (cur, st1) =>
         match processEnclosures d rest st1 with
         | Except.error (err, restE, stE) =>
           Except.error (err, { e1 with animals := cur } :: restE, stE)
         | Except.ok (rest1, st2) => Except.ok ({ e1 with animals := cur } :: rest1, st2)) := rfl

lemma id_setHealth (a : Animal) (v : ℚ) : (a.setHealth v).id = a.id := rfl

lemma id_setHunger (a : Animal) (v : ℚ) : (a.setHunger v).id = a.id := rfl

lemma id_setHappiness (a : Animal) (v : ℚ) : (a.setHappiness v).id = a.id := rfl

lemma id_feed (a : Animal) (f : Food) : (a.feed f).id = a.id := by
  unfold Animal.feed
  split_ifs <;> rfl

lemma id_stepAgeHunger (a : Animal) (u : ℚ) : (a.stepAgeHunger u).id = a.id := rfl

lemma id_stepHappinessFromHunger (a : Animal) : a.stepHappinessFromHunger.id = a.id := by
  unfold Animal.stepHappinessFromHunger
  split_ifs <;> rfl

lemma id_stepHealthFromHunger (a : Animal) : a.stepHealthFromHunger.id = a.id := by
  unfold Animal.stepHealthFromHunger
  split_ifs <;> rfl

lemma id_stepSocial (a : Animal) : a.stepSocial.id = a.id := by
  unfold Animal.stepSocial
  split_ifs <;> rfl

lemma id_physStep (a : Animal) (u : ℚ) : (a.physStep u).id = a.id := by
  unfold Animal.physStep
  rw [id_stepSocial, id_stepHealthFromHunger, id_stepHappinessFromHunger, id_stepAgeHunger]

lemma id_daily_update_fst (a : Animal) (u : ℚ) (i : ℕ) (s : Bool) :
    ((a.daily_update u i s).1).id = a.id := by
  unfold Animal.daily_update
  dsimp only
  split_ifs <;> simp [id_physStep]

lemma health_daily_update_fst (a : Animal) (u : ℚ) (i : ℕ) (s : Bool) :
    ((a.daily_update u i s).1).health = (a.physStep u).health := by
  unfold Animal.daily_update
  dsimp only
  split_ifs <;> rfl

lemma id_stepResident (d : TickDraws) (st : LoopSt) (a : Animal) :
    ((stepResident d st a).2.1).id = a.id := by
  unfold stepResident
  dsimp only
  rcases findFood st.inv a.accepted_food_types with _ | ft <;>
    simp [id_daily_update_fst, id_feed, id_setHunger]

lemma give_birth_id (a : Animal) (i : ℕ) (s : Bool) : (a.give_birth i s).id = i := rfl

lemma give_birth_rawHealth (a : Animal) (i : ℕ) (s : Bool) :
    (a.give_birth i s).rawHealth = 80 := by
  show clamp 80 = 80
  rw [clamp]
  norm_num

lemma daily_update_baby (a : Animal) (u : ℚ) (i : ℕ) (s : Bool) (b : Animal)
    (hb : (a.daily_update u i s).2 = some b) : b.id = i ∧ b.rawHealth = 80 := by
  unfold Animal.daily_update at hb
  dsimp only at hb
  split_ifs at hb
  simp only [Option.some.injEq] at hb
  subst hb
  exact ⟨give_birth_id _ _ _, give_birth_rawHealth _ _ _⟩

lemma stepResident_baby (d : TickDraws) (st : LoopSt) (a : Animal) (b : Animal)
    (hb : (stepResident d st a).2.2 = some b) : b.id = st.nextId ∧ b.rawHealth = 80 := by
  unfold stepResident at hb
  dsimp only at hb
  exact daily_update_baby _ _ _ _ _ hb

lemma is_alive_iff_raw (a : Animal) : a.is_alive = true ↔ 0 < a.rawHealth := by
  rw [Animal.is_alive, decide_eq_true_iff, Animal.health, clamp_pos]

/-- Generic id-map preservation under a pointwise id-preserving map. -/
lemma map_id_of_pointwise (f : Animal → Animal) (h : ∀ a, (f a).id = a.id)
    (l : List Animal) : (l.map f).map Animal.id = l.map Animal.id := by
  induction l with
  | nil => rfl
  | cons x xs ih => simp [h, ih]

lemma replaceById_map_id (l : List Animal) (a : Animal) :
    (replaceById l a).map Animal.id = l.map Animal.id := by
  induction l with
  | nil => rfl
  | cons x xs ih =>
    unfold replaceById at *
    rcases eq_or_ne x.id a.id with h | h <;> simp [h, ih]

lemma mem_replaceById (l : List Animal) (a x : Animal) (hx : x ∈ replaceById l a) :
    x = a ∨ (x ∈ l ∧ x.id ≠ a.id) := by
  unfold replaceById at hx
  rcases List.mem_map.mp hx with ⟨y, hy, hxy⟩
  by_cases h : y.id = a.id
  · left
    rw [← hxy, if_pos h]
  · right
    rw [← hxy, if_neg h]
    exact ⟨hy, h⟩

lemma removeById_sublist (l : List Animal) (i : ℕ) : (removeById l i).Sublist l := by
  induction l with
  | nil => exact List.Sublist.refl _
  | cons x xs ih =>
    unfold removeById
    split_ifs
    · exact List.sublist_cons_self x xs
    · exact List.Sublist.cons₂ x ih

lemma mem_removeById_ne (l : List Animal) (i : ℕ) (hnd : (l.map Animal.id).Nodup)
    (x : Animal) (hx : x ∈ removeById l i) : x ∈ l ∧ x.id ≠ i := by
  induction l with
  | nil => simp [removeById] at hx
  | cons y ys ih =>
    rw [List.map_cons, List.nodup_cons] at hnd
    unfold removeById at hx
    split_ifs at hx with h
    · refine ⟨List.mem_cons_of_mem _ hx, ?_⟩
      intro hxi
      apply hnd.1
      rw [h, ← hxi]
      exact List.mem_map_of_mem Animal.id hx
    · rcases List.mem_cons.mp hx with hx | hx
      · subst hx
        exact ⟨List.mem_cons_self _ _, h⟩
      · rcases ih hnd.2 hx with ⟨h1, h2⟩
        exact ⟨List.mem_cons_of_mem _ h1, h2⟩

/-- Effect of the end-of-turn death check on a resident list, stated
generically: `X` is the live list at check time, `Y` the threaded
state, `a2` the just-updated resident, `cur` the list at the start of
the turn and `st` the state at the start of the turn. -/
lemma prune_branch (cur X : List Animal) (Y st : LoopSt) (a a2 : Animal)
    (pr : List Animal × LoopSt) (hinj : deathPrune X Y a2 = pr)
    (hndX : (X.map Animal.id).Nodup)
    (hmemX : ∀ x ∈ X, x = a2 ∨ (x ∈ cur ∧ x.id ≠ a.id) ∨ 0 < x.rawHealth)
    (hfrX : ∀ x ∈ X, x.id < Y.nextId)
    (hmono : st.nextId ≤ Y.nextId)
    (hsubs : ∃ l, Y.subs = st.subs ++ l) :
    (∀ x ∈ pr.1, 0 < x.rawHealth ∨ (x ∈ cur ∧ x.id ≠ a.id)) ∧
    (pr.1.map Animal.id).Nodup ∧
    (∀ x ∈ pr.1, x.id < pr.2.nextId) ∧
    st.nextId ≤ pr.2.nextId ∧
    (∃ l, pr.2.subs = st.subs ++ l) := by
  subst hinj
  unfold deathPrune
  split_ifs with hal
  · refine ⟨?_, hndX, hfrX, hmono, hsubs⟩
    intro x hx
    rcases hmemX x hx with rfl | h | h
    · exact Or.inl ((is_alive_iff_raw _).mp hal)
    · exact Or.inr h
    · exact Or.inl h
  · dsimp only
    refine ⟨?_, ?_, ?_, hmono, hsubs⟩
    · intro x hx
      obtain ⟨hxX, hne⟩ := mem_removeById_ne _ _ hndX x hx
      rcases hmemX x hxX with rfl | h | h
      · exact absurd rfl hne
      · exact Or.inr h
      · exact Or.inl h
    · exact List.Nodup.sublist (List.Sublist.map _ (removeById_sublist _ _)) hndX
    · intro x hx
      exact hfrX x ((removeById_sublist _ _).subset hx)

set_option maxRecDepth 4000 in
/-- Invariant transfer across one resident's turn: every remaining
resident is either alive or an untouched resident of a different id,
ids stay nodup and below the id counter, the id counter never
decreases, and the observer subscription list only grows. -/
lemma processOne_spec (d : TickDraws) (cap : ℕ) (ht en : String) (cur : List Animal)
    (st : LoopSt) (a : Animal) (pr : List Animal × LoopSt)
    (hok : processOne d cap ht en cur st a = Except.ok pr)
    (hnd : (cur.map Animal.id).Nodup)
    (hfr : ∀ x ∈ cur, x.id < st.nextId)
    (ha : a.id < st.nextId) :
    (∀ x ∈ pr.1, 0 < x.rawHealth ∨ (x ∈ cur ∧ x.id ≠ a.id)) ∧
    ((pr.1.map Animal.id).Nodup) ∧
    (∀ x ∈ pr.1, x.id < pr.2.nextId) ∧
    st.nextId ≤ pr.2.nextId ∧
    (∃ l, pr.2.subs = st.subs ++ l) := by
  have haid : ((stepResident d st a).2.1).id = a.id := id_stepResident d st a
  set a2 := (stepResident d st a).2.1 with ha2
  set curR := replaceById cur a2 with hcurR
  have hndR : (curR.map Animal.id).Nodup := by
    rw [hcurR, replaceById_map_id]
    exact hnd
  have hmemR : ∀ x ∈ curR, x = a2 ∨ (x ∈ cur ∧ x.id ≠ a.id) ∨ 0 < x.rawHealth := by
    intro x hx
    rcases mem_replaceById _ _ _ hx with h | ⟨h1, h2⟩
    · exact Or.inl h
    · exact Or.inr (Or.inl ⟨h1, by rw [← haid]; exact h2⟩)
  have hfrR : ∀ x ∈ curR, x.id < st.nextId := by
    intro x hx
    rcases mem_replaceById _ _ _ hx with h | ⟨h1, _⟩
    · rw [h, haid]
      exact ha
    · exact hfr x h1
  unfold processOne at hok
  dsimp only at hok
  rw [← ha2, ← hcurR] at hok
  rcases hb : (stepResident d st a).2.2 with _ | b
  · rw [hb] at hok
    dsimp only at hok
    injection hok with hinj
    exact prune_branch cur curR _ st a a2 pr hinj hndR hmemR hfrR le_rfl
      ⟨[], (List.append_nil _).symm⟩
  · rw [hb] at hok
    dsimp only at hok
    obtain ⟨hbid, hbraw⟩ := stepResident_baby d st a b hb
    have hbpos : 0 < b.rawHealth := by
      rw [hbraw]
      norm_num
    split_ifs at hok with hcap hav hmem
    · -- newborn not placed (capacity): only a log line is added
      injection hok with hinj
      exact prune_branch cur curR _ st a a2 pr hinj hndR hmemR
        (fun x hx => Nat.lt_succ_of_lt (hfrR x hx)) (Nat.le_succ _)
        ⟨[], (List.append_nil _).symm⟩
    · -- newborn placed, baby id already subscribed (cannot happen for a
      -- fresh id, but the branch is handled all the same)
      injection hok with hinj
      have hnd2 : ((curR ++ [b]).map Animal.id).Nodup := by
        rw [List.map_append]
        refine List.nodup_append.mpr ⟨hndR, List.nodup_singleton _, ?_⟩
        intro y hy hz
        simp only [List.map_cons, List.map_nil, List.mem_singleton] at hz
        subst hz
        rcases List.mem_map.mp hy with ⟨z, hz1, hz2⟩
        have := hfrR z hz1
        rw [hz2, hbid] at this
        exact lt_irrefl _ this
      refine prune_branch cur (curR ++ [b]) _ st a a2 pr hinj hnd2 ?_ ?_ (Nat.le_succ _)
        ⟨[], (List.append_nil _).symm⟩
      · intro x hx
        rcases List.mem_append.mp hx with hx | hx
        · exact hmemR x hx
        · rw [List.mem_singleton] at hx
          subst hx
          exact Or.inr (Or.inr hbpos)
      · intro x hx
        rcases List.mem_append.mp hx with hx | hx
        · exact Nat.lt_succ_of_lt (hfrR x hx)
        · rw [List.mem_singleton] at hx
          subst hx
          rw [hbid]
          exact Nat.lt_succ_self _
    · -- newborn placed and subscribed: the enclosure gains the baby with
      -- its observer back-reference bumped, the subscriptions gain its id
      injection hok with hinj
      have hnd2 : ((curR ++ [b]).map Animal.id).Nodup := by
        rw [List.map_append]
        refine List.nodup_append.mpr ⟨hndR, List.nodup_singleton _, ?_⟩
        intro y hy hz
        simp only [List.map_cons, List.map_nil, List.mem_singleton] at hz
        subst hz
        rcases List.mem_map.mp hy with ⟨z, hz1, hz2⟩
        have := hfrR z hz1
        rw [hz2, hbid] at this
        exact lt_irrefl _ this
      have hnd3 : ((replaceById (curR ++ [b])
          { b with observerRefs := b.observerRefs + 1 }).map Animal.id).Nodup := by
        rw [replaceById_map_id]
        exact hnd2
      refine prune_branch cur
        (replaceById (curR ++ [b]) { b with observerRefs := b.observerRefs + 1 }) _ st a a2 pr
        hinj hnd3 ?_ ?_ (Nat.le_succ _) ⟨[b.id], rfl⟩
      · intro x hx
        rcases mem_replaceById _ _ _ hx with h | ⟨h1, _⟩
        · subst h
          exact Or.inr (Or.inr hbpos)
        · rcases List.mem_append.mp h1 with h1 | h1
          · exact hmemR x h1
          · rw [List.mem_singleton] at h1
            subst h1
            exact Or.inr (Or.inr hbpos)
      · intro x hx
        rcases mem_replaceById _ _ _ hx with h | ⟨h1, _⟩
        · subst h
          show b.id < st.nextId + 1
          rw [hbid]
          exact Nat.lt_succ_self _
        · rcases List.mem_append.mp h1 with h1 | h1
          · exact Nat.lt_succ_of_lt (hfrR x h1)
          · rw [List.mem_singleton] at h1
            subst h1
            rw [hbid]
            exact Nat.lt_succ_self _

/-- Invariant for the whole resident loop of one enclosure: if the ids
in the live list are distinct and below the id counter, every animal
left in the enclosure when the loop finishes is alive; the id counter
never decreases and the subscription list only grows. -/
lemma processAnimals_spec (d : TickDraws) (cap : ℕ) (ht en : String) :
    ∀ (todo cur : List Animal) (st : LoopSt) (pr : List Animal × LoopSt),
      processAnimals d cap ht en todo cur st = Except.ok pr →
      (cur.map Animal.id).Nodup →
      ((todo.map Animal.id).Nodup) →
      (∀ x ∈ cur, 0 < x.rawHealth ∨ x.id ∈ todo.map Animal.id) →
      (∀ x ∈ cur, x.id < st.nextId) →
      (∀ x ∈ todo, x.id < st.nextId) →
      (∀ x ∈ pr.1, 0 < x.rawHealth) ∧ st.nextId ≤ pr.2.nextId ∧
        (∃ l, pr.2.subs = st.subs ++ l) := by
  intro todo
  induction todo with
  | nil =>
    intro cur st pr hok hnd _ hcond _ _
    rw [processAnimals_nil] at hok
    injection hok with hinj
    subst hinj
    refine ⟨?_, le_rfl, ⟨[], (List.append_nil _).symm⟩⟩
    intro x hx
    rcases hcond x hx with h | h
    · exact h
    · simp at h
  | cons a rest ih =>
    intro cur st pr hok hnd hndt hcond hfr hfrt
    rw [processAnimals_cons] at hok
    rcases hpo : processOne d cap ht en cur st a with e | pr1
    · rw [hpo] at hok
      exact absurd hok (by simp)
    · obtain ⟨cur1, st1⟩ := pr1
      rw [hpo] at hok
      dsimp only at hok
      obtain ⟨hm, hnd1, hfr1, hmono1, hsubs1⟩ :=
        processOne_spec d cap ht en cur st a (cur1, st1) hpo hnd hfr
          (hfrt a (List.mem_cons_self _ _))
      rw [List.map_cons, List.nodup_cons] at hndt
      have hcond1 : ∀ x ∈ cur1, 0 < x.rawHealth ∨ x.id ∈ rest.map Animal.id := by
        intro x hx
        rcases hm x hx with h | ⟨hxc, hne⟩
        · exact Or.inl h
        · rcases hcond x hxc with h | h
          · exact Or.inl h
          · rw [List.map_cons, List.mem_cons] at h
            rcases h with h | h
            · exact absurd h hne
            · exact Or.inr h
      have hfrt1 : ∀ x ∈ rest, x.id < st1.nextId := by
        intro x hx
        exact lt_of_lt_of_le (hfrt x (List.mem_cons_of_mem _ hx)) hmono1
      obtain ⟨hal, hmono2, hsubs2⟩ := ih cur1 st1 pr hok hnd1 hndt.2 hcond1 hfr1 hfrt1
      refine ⟨hal, le_trans hmono1 hmono2, ?_⟩
      rcases hsubs1 with ⟨l1, h1⟩
      rcases hsubs2 with ⟨l2, h2⟩
      exact ⟨l1 ++ l2, by rw [h2, h1, List.append_assoc]⟩

lemma daily_maintenance_map_id (e : Enclosure) :
    (e.daily_maintenance).animals.map Animal.id = e.animals.map Animal.id := by
  unfold Enclosure.daily_maintenance
  dsimp only
  split_ifs
  · dsimp only
    exact map_id_of_pointwise
      (fun a => (a.setHappiness (a.happiness - 1)).setHealth
        ((a.setHappiness (a.happiness - 1)).health - 3 / 10))
      (fun a => rfl) e.animals
  · rfl

/-- Invariant for the whole per-enclosure pass. -/
lemma processEnclosures_spec (d : TickDraws) :
    ∀ (encs : List Enclosure) (st : LoopSt) (pr : List Enclosure × LoopSt),
      processEnclosures d encs st = Except.ok pr →
      (∀ e ∈ encs, (e.animals.map Animal.id).Nodup) →
      (∀ e ∈ encs, ∀ x ∈ e.animals, x.id < st.nextId) →
      (∀ e ∈ pr.1, ∀ x ∈ e.animals, 0 < x.rawHealth) ∧ st.nextId ≤ pr.2.nextId ∧
        (∃ l, pr.2.subs = st.subs ++ l) := by
  intro encs
  induction encs with
  | nil =>
    intro st pr hok _ _
    rw [processEnclosures_nil] at hok
    injection hok with hinj
    subst hinj
    exact ⟨by simp, le_rfl, ⟨[], (List.append_nil _).symm⟩⟩
  | cons e rest ih =>
    intro st pr hok hnd hfr
    rw [processEnclosures_cons] at hok
    dsimp only at hok
    rcases hpa : processAnimals d e.daily_maintenance.capacity e.daily_maintenance.habitat_type
        e.daily_maintenance.name e.daily_maintenance.animals e.daily_maintenance.animals st
      with err | pr1
    · obtain ⟨e1, e2, e3⟩ := err
      rw [hpa] at hok
      exact absurd hok (by simp)
    · obtain ⟨cur1, st1⟩ := pr1
      rw [hpa] at hok
      dsimp only at hok
      have hndm : ((e.daily_maintenance).animals.map Animal.id).Nodup := by
        rw [daily_maintenance_map_id]
        exact hnd e (List.mem_cons_self _ _)
      have hfrm : ∀ x ∈ (e.daily_maintenance).animals, x.id < st.nextId := by
        intro x hx
        have hxid : x.id ∈ (e.daily_maintenance).animals.map Animal.id :=
          List.mem_map_of_mem _ hx
        rw [daily_maintenance_map_id] at hxid
        rcases List.mem_map.mp hxid with ⟨y, hy, hyid⟩
        rw [← hyid]
        exact hfr e (List.mem_cons_self _ _) y hy
      obtain ⟨hal1, hmono1, hsubs1⟩ :=
        processAnimals_spec d e.daily_maintenance.capacity e.daily_maintenance.habitat_type
          e.daily_maintenance.name e.daily_maintenance.animals e.daily_maintenance.animals st
          (cur1, st1) hpa hndm hndm
          (fun x hx => Or.inr (List.mem_map_of_mem _ hx)) hfrm hfrm
      rcases hpe : processEnclosures d rest st1 with err2 | pr2
      · obtain ⟨f1, f2, f3⟩ := err2
        rw [hpe] at hok
        exact absurd hok (by simp)
      · obtain ⟨rest1, st2⟩ := pr2
        rw [hpe] at hok
        dsimp only at hok
        injection hok with hinj
        subst hinj
        obtain ⟨hal2, hmono2, hsubs2⟩ := ih st1 (rest1, st2) hpe
          (fun e2 he2 => hnd e2 (List.mem_cons_of_mem _ he2))
          (fun e2 he2 x hx =>
            lt_of_lt_of_le (hfr e2 (List.mem_cons_of_mem _ he2) x hx) hmono1)
        refine ⟨?_, le_trans hmono1 hmono2, ?_⟩
        · intro e2 he2
          rcases List.mem_cons.mp he2 with h | h
          · subst h
            exact hal1
          · exact hal2 e2 h
        · rcases hsubs1 with ⟨l1, h1⟩
          rcases hsubs2 with ⟨l2, h2⟩
          exact ⟨l1 ++ l2, by rw [h2, h1, List.append_assoc]⟩

lemma visitorPhase_enclosures (z : Zoo) (d : TickDraws) :
    (z.visitorPhase d).enclosures = z.enclosures := rfl

lemma visitorPhase_next_id (z : Zoo) (d : TickDraws) :
    (z.visitorPhase d).next_id = z.next_id := rfl

lemma visitorPhase_subs (z : Zoo) (d : TickDraws) :
    (z.visitorPhase d).observerSubs = z.observerSubs := rfl

lemma deathPrune_subs (cur : List Animal) (st : LoopSt) (a2 : Animal) :
    (deathPrune cur st a2).2.subs = st.subs := by
  unfold deathPrune
  split_ifs <;> rfl

/-- The observer subscription list only ever grows during one
resident's turn (babies are subscribed; nothing is ever removed). -/
lemma processOne_subs (d : TickDraws) (cap : ℕ) (ht en : String) (cur : List Animal)
    (st : LoopSt) (a : Animal) (pr : List Animal × LoopSt)
    (hok : processOne d cap ht en cur st a = Except.ok pr) :
    ∃ l, pr.2.subs = st.subs ++ l := by
  unfold processOne at hok
  dsimp only at hok
  rcases hb : (stepResident d st a).2.2 with _ | b
  · rw [hb] at hok
    dsimp only at hok
    injection hok with hinj
    exact ⟨[], by rw [← hinj, deathPrune_subs]; exact (List.append_nil _).symm⟩
  · rw [hb] at hok
    dsimp only at hok
    split_ifs at hok with hcap hav hmem
    · injection hok with hinj
      exact ⟨[], by rw [← hinj, deathPrune_subs]; exact (List.append_nil _).symm⟩
    · injection hok with hinj
      exact ⟨[], by rw [← hinj, deathPrune_subs]; exact (List.append_nil _).symm⟩
    · injection hok with hinj
      exact ⟨[b.id], by rw [← hinj, deathPrune_subs]; rfl⟩

lemma processAnimals_subs (d : TickDraws) (cap : ℕ) (ht en : String) :
    ∀ (todo cur : List Animal) (st : LoopSt) (pr : List Animal × LoopSt),
      processAnimals d cap ht en todo cur st = Except.ok pr →
      ∃ l, pr.2.subs = st.subs ++ l := by
  intro todo
  induction todo with
  | nil =>
    intro cur st pr hok
    rw [processAnimals_nil] at hok
    injection hok with hinj
    subst hinj
    exact ⟨[], (List.append_nil _).symm⟩
  | cons a rest ih =>
    intro cur st pr hok
    rw [processAnimals_cons] at hok
    rcases hpo : processOne d cap ht en cur st a with e | pr1
    · rw [hpo] at hok
      exact absurd hok (by simp)
    · obtain ⟨cur1, st1⟩ := pr1
      rw [hpo] at hok
      dsimp only at hok
      obtain ⟨l1, h1⟩ := processOne_subs d cap ht en cur st a (cur1, st1) hpo
      obtain ⟨l2, h2⟩ := ih cur1 st1 pr hok
      exact ⟨l1 ++ l2, by rw [h2, h1, List.append_assoc]⟩

lemma processEnclosures_subs (d : TickDraws) :
    ∀ (encs : List Enclosure) (st : LoopSt) (pr : List Enclosure × LoopSt),
      processEnclosures d encs st = Except.ok pr →
      ∃ l, pr.2.subs = st.subs ++ l := by
  intro encs
  induction encs with
  | nil =>
    intro st pr hok
    rw [processEnclosures_nil] at hok
    injection hok with hinj
    subst hinj
    exact ⟨[], (List.append_nil _).symm⟩
  | cons e rest ih =>
    intro st pr hok
    rw [processEnclosures_cons] at hok
    dsimp only at hok
    rcases hpa : processAnimals d e.daily_maintenance.capacity e.daily_maintenance.habitat_type
        e.daily_maintenance.name e.daily_maintenance.animals e.daily_maintenance.animals st
      with err | pr1
    · obtain ⟨e1, e2, e3⟩ := err
      rw [hpa] at hok
      exact absurd hok (by simp)
    · obtain ⟨cur1, st1⟩ := pr1
      rw [hpa] at hok
      dsimp only at hok
      rcases hpe : processEnclosures d rest st1 with err2 | pr2
      · obtain ⟨f1, f2, f3⟩ := err2
        rw [hpe] at hok
        exact absurd hok (by simp)
      · obtain ⟨rest1, st2⟩ := pr2
        rw [hpe] at hok
        dsimp only at hok
        injection hok with hinj
        subst hinj
        obtain ⟨l1, h1⟩ := processAnimals_subs d e.daily_maintenance.capacity
          e.daily_maintenance.habitat_type e.daily_maintenance.name e.daily_maintenance.animals
          e.daily_maintenance.animals st (cur1, st1) hpa
        obtain ⟨l2, h2⟩ := ih st1 (rest1, st2) hpe
        exact ⟨l1 ++ l2, by rw [h2, h1, List.append_assoc]⟩

/-- The per-enclosure phase of a tick: if ids are distinct and below
the id counter, every surviving resident is alive; subscriptions only
grow. -/
lemma enclosurePhase_spec (z : Zoo) (d : TickDraws) (z' : Zoo)
    (hok : z.enclosurePhase d = Except.ok z')
    (hnd : ∀ e ∈ z.enclosures, (e.animals.map Animal.id).Nodup)
    (hfr : ∀ e ∈ z.enclosures, ∀ x ∈ e.animals, x.id < z.next_id) :
    (∀ e ∈ z'.enclosures, ∀ x ∈ e.animals, 0 < x.rawHealth) := by
  unfold Zoo.enclosurePhase at hok
  dsimp only at hok
  rcases hpe : processEnclosures d z.enclosures
      { inv := z.food_inventory, subs := z.observerSubs, log := z.event_log,
        nextId := z.next_id, uIdx := 0, bIdx := 0, day := z.day }
    with err | pr
  · obtain ⟨e1, e2, e3⟩ := err
    rw [hpe] at hok
    exact absurd hok (by simp)
  · obtain ⟨encs, st⟩ := pr
    rw [hpe] at hok
    dsimp only at hok
    injection hok with hinj
    subst hinj
    obtain ⟨hal, _, _⟩ := processEnclosures_spec d z.enclosures
      { inv := z.food_inventory, subs := z.observerSubs, log := z.event_log,
        nextId := z.next_id, uIdx := 0, bIdx := 0, day := z.day }
      (encs, st) hpe hnd hfr
    exact hal

lemma enclosurePhase_subs (z : Zoo) (d : TickDraws) (z' : Zoo)
    (hok : z.enclosurePhase d = Except.ok z') :
    ∃ l, z'.observerSubs = z.observerSubs ++ l := by
  unfold Zoo.enclosurePhase at hok
  dsimp only at hok
  rcases hpe : processEnclosures d z.enclosures
      { inv := z.food_inventory, subs := z.observerSubs, log := z.event_log,
        nextId := z.next_id, uIdx := 0, bIdx := 0, day := z.day }
    with err | pr
  · obtain ⟨e1, e2, e3⟩ := err
    rw [hpe] at hok
    exact absurd hok (by simp)
  · obtain ⟨encs, st⟩ := pr
    rw [hpe] at hok
    dsimp only at hok
    injection hok with hinj
    subst hinj
    exact processEnclosures_subs d z.enclosures _ (encs, st) hpe

lemma log_event_finance (z : Zoo) (t : String) :
    (z.log_event t).finance_manager = z.finance_manager := rfl

/-- Random events never change any resident's raw health: the heatwave
and the escape scare only touch cleanliness and happiness. -/
lemma handle_random_events_alive (z : Zoo) (r don : ℚ) (i j : ℕ) (z' : Zoo)
    (hok : z.handle_random_events r don i j = Except.ok z')
    (h : ∀ e ∈ z.enclosures, ∀ x ∈ e.animals, 0 < x.rawHealth) :
    ∀ e ∈ z'.enclosures, ∀ x ∈ e.animals, 0 < x.rawHealth := by
  unfold Zoo.handle_random_events at hok
  split_ifs at hok with h1 h2 h3 h4
  · -- heatwave
    dsimp only at hok
    rcases hexp : z.finance_manager.add_expense 200 ("Heatwave emergency cooling")
      with err | fm
    · rw [hexp] at hok
      exact absurd hok (by simp)
    · rw [hexp] at hok
      dsimp only at hok
      injection hok with hinj
      subst hinj
      intro e he x hx
      rcases List.mem_map.mp he with ⟨e0, he0, hee⟩
      subst hee
      dsimp only at hx
      rcases List.mem_map.mp hx with ⟨y, hy, hyx⟩
      subst hyx
      exact h e0 he0 y hy
  · -- donation with sufficient balance
    injection hok with hinj
    subst hinj
    exact h
  · -- donation band, poor zoo: no event
    injection hok with hinj
    subst hinj
    exact h
  · -- escape band
    rcases hge : z.enclosures.get? i with _ | e0
    · rw [hge] at hok
      injection hok with hinj
      subst hinj
      exact h
    · rw [hge] at hok
      dsimp only at hok
      rcases hga : e0.animals.get? j with _ | a0
      · rw [hga] at hok
        injection hok with hinj
        subst hinj
        exact h
      · rw [hga] at hok
        dsimp only at hok
        simp only [log_event_finance] at hok
        have he0 : e0 ∈ z.enclosures := by
          rcases List.get?_eq_some.mp hge with ⟨hlt, hget⟩
          rw [← hget]
          exact List.get_mem _ _ _
        have ha0 : a0 ∈ e0.animals := by
          rcases List.get?_eq_some.mp hga with ⟨hlt, hget⟩
          rw [← hget]
          exact List.get_mem _ _ _
        have hset : ∀ e ∈ (z.enclosures.set i
            { e0 with animals := e0.animals.set j (a0.setHappiness (a0.happiness - 20)) }),
            ∀ x ∈ e.animals, 0 < x.rawHealth := by
          intro e he x hx
          rcases List.mem_or_eq_of_mem_set he with he | he
          · exact h e he x hx
          · subst he
            dsimp only at hx
            rcases List.mem_or_eq_of_mem_set hx with hx | hx
            · exact h e0 he0 x hx
            · subst hx
              exact h e0 he0 a0 ha0
        rcases hexp : z.finance_manager.add_expense 50 ("Escape incident repairs")
          with err | fm
        · rw [hexp] at hok
          injection hok with hinj
          subst hinj
          exact hset
        · rw [hexp] at hok
          injection hok with hinj
          subst hinj
          exact hset
  · -- no event
    injection hok with hinj
    subst hinj
    exact h

/-- Random events never touch the observer subscription list. -/
lemma handle_random_events_subs (z : Zoo) (r don : ℚ) (i j : ℕ) (z' : Zoo)
    (hok : z.handle_random_events r don i j = Except.ok z') :
    z'.observerSubs = z.observerSubs := by
  unfold Zoo.handle_random_events at hok
  split_ifs at hok with h1 h2 h3 h4
  · dsimp only at hok
    rcases hexp : z.finance_manager.add_expense 200 ("Heatwave emergency cooling")
      with err | fm
    · rw [hexp] at hok
      exact absurd hok (by simp)
    · rw [hexp] at hok
      dsimp only at hok
      injection hok with hinj
      subst hinj
      rfl
  · injection hok with hinj
    subst hinj
    rfl
  · injection hok with hinj
    subst hinj
    rfl
  · rcases hge : z.enclosures.get? i with _ | e0
    · rw [hge] at hok
      injection hok with hinj
      subst hinj
      rfl
    · rw [hge] at hok
      dsimp only at hok
      rcases hga : e0.animals.get? j with _ | a0
      · rw [hga] at hok
        injection hok with hinj
        subst hinj
        rfl
      · rw [hga] at hok
        dsimp only at hok
        simp only [log_event_finance] at hok
        rcases hexp : z.finance_manager.add_expense 50 ("Escape incident repairs")
          with err | fm
        · rw [hexp] at hok
          injection hok with hinj
          subst hinj
          rfl
        · rw [hexp] at hok
          injection hok with hinj
          subst hinj
          rfl
  · injection hok with hinj
    subst hinj
    rfl

/-- Outside all three event bands nothing happens. -/
lemma handle_no_event (z : Zoo) (r don : ℚ) (i j : ℕ) (h : 18/100 ≤ r) :
    z.handle_random_events r don i j = Except.ok z := by
  unfold Zoo.handle_random_events
  rw [if_neg (by linarith), if_neg (by linarith), if_neg (by linarith)]

/-- Claim C8: a creature is alive exactly when its (clamped) health is
greater than 0, and after a completed tick no enclosure contains a
creature with health 0 — every remaining resident has strictly
positive health.  The two side conditions (distinct animal ids, ids
below the `Animal._id_counter` value) hold in every state the engine
can construct, since ids are assigned from the strictly increasing
class counter. -/
theorem c8_alive_after_tick (z : Zoo) (d : TickDraws) (z' : Zoo)
    (hnd : ∀ e ∈ z.enclosures, (e.animals.map Animal.id).Nodup)
    (hfr : ∀ e ∈ z.enclosures, ∀ a ∈ e.animals, a.id < z.next_id)
    (hok : z.daily_operations d = Except.ok z') :
    (∀ a : Animal, a.is_alive = true ↔ 0 < a.health) ∧
    (∀ e ∈ z'.enclosures, ∀ a ∈ e.animals, 0 < a.health) := by
  refine ⟨fun a => by rw [Animal.is_alive, decide_eq_true_iff], ?_⟩
  unfold Zoo.daily_operations at hok
  rcases hep : (z.visitorPhase d).enclosurePhase d with p | z2
  · rw [hep] at hok
    exact absurd hok (by simp)
  · rw [hep] at hok
    dsimp only at hok
    rcases hre : z2.handle_random_events d.eventRoll d.donationAmount d.escapeEncIdx
        d.escapeAnimalIdx with p | z3
    · rw [hre] at hok
      exact absurd hok (by simp)
    · rw [hre] at hok
      dsimp only at hok
      injection hok with hinj
      subst hinj
      have h2 := enclosurePhase_spec (z.visitorPhase d) d z2 hep hnd hfr
      have h3 := handle_random_events_alive z2 _ _ _ _ z3 hre h2
      intro e he a ha
      rw [Animal.health, clamp_pos]
      exact h3 e he a ha

/-- Claim C9 (amended): during a tick the observer's subscription list
only ever grows (babies are subscribed); in particular a creature that
dies is removed from its habitat but never from the observation
lists — `unsubscribe` is not called anywhere in the engine. -/
theorem c9_subscriptions_monotone (z : Zoo) (d : TickDraws) (z' : Zoo)
    (hok : z.daily_operations d = Except.ok z') :
    ∃ l, z'.observerSubs = z.observerSubs ++ l := by
  unfold Zoo.daily_operations at hok
  rcases hep : (z.visitorPhase d).enclosurePhase d with p | z2
  · rw [hep] at hok
    exact absurd hok (by simp)
  · rw [hep] at hok
    dsimp only at hok
    rcases hre : z2.handle_random_events d.eventRoll d.donationAmount d.escapeEncIdx
        d.escapeAnimalIdx with p | z3
    · rw [hre] at hok
      exact absurd hok (by simp)
    · rw [hre] at hok
      dsimp only at hok
      injection hok with hinj
      subst hinj
      obtain ⟨l, hl⟩ := enclosurePhase_subs (z.visitorPhase d) d z2 hep
      have h3 := handle_random_events_subs z2 _ _ _ _ z3 hre
      exact ⟨l, by rw [show ({ z3 with day := z3.day + 1 } : Zoo).observerSubs =
        z3.observerSubs from rfl, h3, hl, visitorPhase_subs]⟩

/-! ### Concrete ticks for witnesses and counterexamples -/

/-- Draw record used by the concrete ticks: no visitors, hunger
increments of 5, an event roll of 1/2 (no event). -/
def drawsW : TickDraws :=
  { visitorCount := 0, visitorBudget := fun _ => 10, visitorEnc := fun _ => 0,
    visitorSpendFactor := fun _ => 5, hungerInc := fun _ => 5, babySexF := fun _ => false,
    eventRoll := 1/2, donationAmount := 0, escapeEncIdx := 0, escapeAnimalIdx := 0 }

/-- The visitor-wave log line of a zero-visitor day 1. -/
def logW : String :=
  "Day " ++ toString (1:ℕ) ++ ": " ++ ("Day " ++ toString (1:ℕ) ++ ": " ++
    toString (0:ℕ) ++ " visitors -> $" ++ toString (0:ℚ) ++ " revenue")

/-- A zoo with no enclosures. -/
def zEmptyW : Zoo :=
  { name := "OzZoo", enclosures := [], food_inventory := [], medicine_inventory := [],
    finance_manager := ⟨0, [], []⟩, observerSubs := [], daily_ticket_price := 25,
    day := 1, event_log := [], next_id := 1 }

/-- The empty zoo after the visitor wave of `drawsW`. -/
def zEmptyV : Zoo :=
  { zEmptyW with
    finance_manager := ⟨0, [((0:ℚ), "Daily visitors & sales")], []⟩
    event_log := [logW] }

lemma zEmpty_visitor : zEmptyW.visitorPhase drawsW = zEmptyV := by
  simp only [Zoo.visitorPhase, Zoo.waveSpend, Zoo.log_event, FinanceManager.add_income,
    drawsW, zEmptyW, zEmptyV, logW]
  norm_num

lemma zEmpty_enclosures : zEmptyV.enclosurePhase drawsW = Except.ok zEmptyV := rfl

lemma zEmpty_tick : Zoo.daily_operations zEmptyW drawsW = Except.ok { zEmptyV with day := 2 } := by
  unfold Zoo.daily_operations
  rw [zEmpty_visitor, zEmpty_enclosures]
  dsimp only
  rw [show drawsW.eventRoll = 1/2 from rfl,
    handle_no_event zEmptyV (1/2) drawsW.donationAmount drawsW.escapeEncIdx
      drawsW.escapeAnimalIdx (by norm_num)]
  rfl

/-- Witness for C8: a concrete zoo satisfying the id side conditions,
a concrete tick that completes, and the conclusion instantiated. -/
theorem c8_alive_after_tick_witness :
    Zoo.daily_operations zEmptyW drawsW = Except.ok { zEmptyV with day := 2 } ∧
    ((∀ a : Animal, a.is_alive = true ↔ 0 < a.health) ∧
      (∀ e ∈ ({ zEmptyV with day := 2 } : Zoo).enclosures, ∀ a ∈ e.animals, 0 < a.health)) :=
  ⟨zEmpty_tick,
    c8_alive_after_tick zEmptyW drawsW _
      (by intro e he; simp [zEmptyW] at he)
      (by intro e he; simp [zEmptyW] at he)
      zEmpty_tick⟩

/-- A koala one bad day away from death: raw health 1, raw hunger 90. -/
def aDoomed : Animal :=
  { id := 1, species := "Koala", name := "Kiki", age := 2, rawHealth := 1, rawHunger := 90,
    rawHappiness := 0, sex := 'F', pregnant := false, days_pregnant := 0,
    social_needs := 50, variant := Variant.koala, observerRefs := 1 }

/-- `aDoomed` after its fatal day: hunger penalty +5, update +5, health
clamped to 0. -/
def aDeadW : Animal :=
  { id := 1, species := "Koala", name := "Kiki", age := 731/365, rawHealth := 0,
    rawHunger := 100, rawHappiness := 0, sex := 'F', pregnant := false, days_pregnant := 0,
    social_needs := 50, variant := Variant.koala, observerRefs := 1 }

/-- Forest enclosure holding only `aDoomed`. -/
def enc9 : Enclosure :=
  { name := "Forest Enclosure", capacity := 4, habitat_type := "forest", cleanliness := 100,
    animals := [aDoomed], upgrade_level := 1 }

/-- Zoo state in which `aDoomed` (id 1) is housed and subscribed. -/
def z9 : Zoo :=
  { name := "OzZoo", enclosures := [enc9], food_inventory := [], medicine_inventory := [],
    finance_manager := ⟨100, [], []⟩, observerSubs := [1], daily_ticket_price := 25,
    day := 1, event_log := [], next_id := 2 }

/-- `z9` after the (empty) visitor wave. -/
def z9V : Zoo :=
  { z9 with
    finance_manager := ⟨100, [((0:ℚ), "Daily visitors & sales")], []⟩
    event_log := [logW] }

lemma z9_visitor : z9.visitorPhase drawsW = z9V := by
  simp only [Zoo.visitorPhase, Zoo.waveSpend, Zoo.log_event, FinanceManager.add_income,
    drawsW, z9, z9V, logW]
  norm_num

/-- The threaded state at the start of the per-enclosure pass of `z9V`. -/
def st9 : LoopSt :=
  { inv := [], subs := [1], log := [logW], nextId := 2, uIdx := 0, bIdx := 0, day := 1 }

lemma z9_step : stepResident drawsW st9 aDoomed = ([], aDeadW, none) := by
  norm_num [stepResident, findFood, dictGet, Animal.daily_update, Animal.physStep,
    Animal.stepAgeHunger, Animal.stepHappinessFromHunger, Animal.stepHealthFromHunger,
    Animal.stepSocial, Animal.setHunger, Animal.setHappiness, Animal.setHealth,
    Animal.hunger, Animal.happiness, Animal.health, clamp,
    Animal.accepted_food_types, Variant.accepted_food_types, drawsW, aDoomed, st9, aDeadW]

/-- The threaded state after the pass: one hunger draw consumed, the
death logged. -/
def st9F : LoopSt :=
  { inv := [], subs := [1],
    log := [logW, "Day " ++ toString (1:ℕ) ++ ": " ++ deathMsg aDeadW],
    nextId := 2, uIdx := 1, bIdx := 0, day := 1 }

lemma z9_processOne : processOne drawsW 4 ("forest") ("Forest Enclosure") [aDoomed] st9 aDoomed =
    Except.ok ([], st9F) := by
  unfold processOne
  simp only [z9_step]
  norm_num [deathPrune, Animal.is_alive, Animal.health, clamp, replaceById, removeById,
    stLog, deathMsg, aDeadW, aDoomed, st9, st9F]

/-- `enc9` after maintenance: cleanliness drops by one resident's 0.5. -/
def enc9m : Enclosure :=
  { name := "Forest Enclosure", capacity := 4, habitat_type := "forest", cleanliness := 199/2,
    animals := [aDoomed], upgrade_level := 1 }

lemma z9_maint : enc9.daily_maintenance = enc9m := by
  norm_num [Enclosure.daily_maintenance, enc9, enc9m]

lemma z9_processAnimals :
    processAnimals drawsW 4 ("forest") ("Forest Enclosure") [aDoomed] [aDoomed] st9 =
      Except.ok ([], st9F) := by
  rw [processAnimals_cons, z9_processOne]
  rfl

/-- Helper equation exposing the body of `enclosurePhase`. -/
lemma enclosurePhase_build (z : Zoo) (d : TickDraws) :
    z.enclosurePhase d =
      (match processEnclosures d z.enclosures
          { inv := z.food_inventory, subs := z.observerSubs, log := z.event_log,
            nextId := z.next_id, uIdx := 0, bIdx := 0, day := z.day } with
        | Except.error (err, encs, st) => Except.error (err, z.rebuild encs st)
        | Except.ok (encs, st) => Except.ok (z.rebuild encs st)) := rfl

/-- The emptied forest enclosure after the koala's death. -/
def enc9F : Enclosure :=
  { name := "Forest Enclosure", capacity := 4, habitat_type := "forest", cleanliness := 199/2,
    animals := [], upgrade_level := 1 }

/-- `z9` after the whole per-enclosure pass: the koala has died, been
removed from the enclosure and logged — but id 1 is still in the
observer's subscription list. -/
def z9E : Zoo :=
  { name := "OzZoo", enclosures := [enc9F], food_inventory := [], medicine_inventory := [],
    finance_manager := ⟨100, [((0:ℚ), "Daily visitors & sales")], []⟩, observerSubs := [1],
    daily_ticket_price := 25, day := 1,
    event_log := [logW, "Day " ++ toString (1:ℕ) ++ ": " ++ deathMsg aDeadW], next_id := 2 }

lemma z9_encphase : z9V.enclosurePhase drawsW = Except.ok z9E := by
  rw [enclosurePhase_build]
  rw [show z9V.enclosures = [enc9] from rfl]
  rw [show ({ inv := z9V.food_inventory, subs := z9V.observerSubs, log := z9V.event_log, nextId := z9V.next_id, uIdx := 0, bIdx := 0, day := z9V.day } : LoopSt) = st9 from rfl]
  rw [processEnclosures_cons]
  dsimp only
  rw [z9_maint]
  rw [show enc9m.capacity = 4 from rfl, show enc9m.habitat_type = ("forest") from rfl,
    show enc9m.name = ("Forest Enclosure") from rfl, show enc9m.animals = [aDoomed] from rfl]
  rw [z9_processAnimals]
  rfl

lemma z9_tick : Zoo.daily_operations z9 drawsW = Except.ok { z9E with day := 2 } := by
  unfold Zoo.daily_operations
  rw [z9_visitor, z9_encphase]
  dsimp only
  rw [show drawsW.eventRoll = 1/2 from rfl,
    handle_no_event z9E (1/2) drawsW.donationAmount drawsW.escapeEncIdx
      drawsW.escapeAnimalIdx (by norm_num)]
  rfl

/-- Counterexample for C9: in `z9` the creature with id 1 is housed and
subscribed; during the tick it dies and is removed from its habitat
(the enclosure ends empty), yet its id is still in the observer's
subscription list afterwards — the engine never unsubscribes dead
creatures, contradicting the claim that it is removed from the
observation lists. -/
theorem c9_unsubscribe_cex :
    Zoo.daily_operations z9 drawsW = Except.ok { z9E with day := 2 } ∧
    z9.enclosures.map Enclosure.animals = [[aDoomed]] ∧
    aDoomed.id = 1 ∧ z9.observerSubs = [1] ∧
    ({ z9E with day := 2 } : Zoo).enclosures.map Enclosure.animals = [[]] ∧
    ({ z9E with day := 2 } : Zoo).observerSubs = [1] :=
  ⟨z9_tick, rfl, rfl, rfl, rfl, rfl⟩

/-- Witness for the amended C9 at the same concrete tick: the
subscription list after the tick extends the one before it. -/
theorem c9_subscriptions_monotone_witness :
    ∃ l, ({ z9E with day := 2 } : Zoo).observerSubs = z9.observerSubs ++ l :=
  c9_subscriptions_monotone z9 drawsW _ z9_tick

/-! ### Claim C5 -/

lemma stepAgeHunger_hunger (a : Animal) (u : ℚ) :
    (a.stepAgeHunger u).hunger = clamp (a.hunger + u) := by
  unfold Animal.stepAgeHunger
  dsimp only
  rw [hunger_setHunger]
  rfl

lemma stepAgeHunger_health (a : Animal) (u : ℚ) : (a.stepAgeHunger u).health = a.health := rfl

lemma stepHappinessFromHunger_hunger (a : Animal) :
    a.stepHappinessFromHunger.hunger = a.hunger := by
  unfold Animal.stepHappinessFromHunger
  split_ifs <;> rfl

lemma stepHappinessFromHunger_health (a : Animal) :
    a.stepHappinessFromHunger.health = a.health := by
  unfold Animal.stepHappinessFromHunger
  split_ifs <;> rfl

lemma stepSocial_health (a : Animal) : a.stepSocial.health = a.health := by
  unfold Animal.stepSocial
  split_ifs <;> rfl

/-- Claim C5 (amended): for a creature with hunger 90 and health 50,
one `daily_update` with hunger draw `u ∈ [5, 15]` decreases health by
`(min(100, 90+u) − 80) × 0.5` — the decline is computed from the
hunger value AFTER this tick's random increment (clamped at 100), not
before it, so the decrease lies in [7.5, 10] rather than being 5. -/
theorem c5_very_hungry_health_drop (a : Animal) (u : ℚ) (bi : ℕ) (s : Bool)
    (hhu : a.hunger = 90) (hhe : a.health = 50) (hu1 : 5 ≤ u) (hu2 : u ≤ 15) :
    ((a.daily_update u bi s).1).health = 50 - (min 100 (90 + u) - 80) * (1/2) := by
  rw [health_daily_update_fst]
  unfold Animal.physStep
  have hA : (a.stepAgeHunger u).hunger = clamp (90 + u) := by
    rw [stepAgeHunger_hunger, hhu]
  have hcl : clamp (90 + u) = min 100 (90 + u) := by
    rw [clamp, max_eq_right (le_min (by norm_num) (by linarith))]
  have hx95 : 95 ≤ min 100 (90 + u) := le_min (by norm_num) (by linarith)
  have hx100 : min 100 (90 + u) ≤ 100 := min_le_left _ _
  have hAhealth : (a.stepAgeHunger u).health = 50 := by
    rw [stepAgeHunger_health]
    exact hhe
  have hBhunger : ((a.stepAgeHunger u).stepHappinessFromHunger).hunger = min 100 (90 + u) := by
    rw [stepHappinessFromHunger_hunger, hA, hcl]
  have hBhealth : ((a.stepAgeHunger u).stepHappinessFromHunger).health = 50 := by
    rw [stepHappinessFromHunger_health, hAhealth]
  have hBh80 : ((a.stepAgeHunger u).stepHappinessFromHunger).hunger > 80 := by
    rw [hBhunger]
    linarith
  have hC : ((a.stepAgeHunger u).stepHappinessFromHunger).stepHealthFromHunger =
      ((a.stepAgeHunger u).stepHappinessFromHunger).setHealth
        (((a.stepAgeHunger u).stepHappinessFromHunger).health -
          (((a.stepAgeHunger u).stepHappinessFromHunger).hunger - 80) * (1/2)) := by
    unfold Animal.stepHealthFromHunger
    rw [if_pos hBh80]
  rw [hC, stepSocial_health, health_setHealth, hBhealth, hBhunger,
    clamp_eq_of _ (by linarith) (by linarith)]

/-- A koala matching C5's scenario: hunger 90, health 50. -/
def aC5 : Animal :=
  { id := 3, species := "Koala", name := "Kiki", age := 2, rawHealth := 50, rawHunger := 90,
    rawHappiness := 100, sex := 'F', pregnant := false, days_pregnant := 0,
    social_needs := 50, variant := Variant.koala, observerRefs := 1 }

/-- Counterexample for C5 as frozen: with hunger 90, health 50 and the
smallest possible hunger draw 5, one `daily_update` leaves health at
42.5 — a decrease of 7.5, not the claimed (90−80)×0.5 = 5. -/
theorem c5_health_drop_cex :
    aC5.hunger = 90 ∧ aC5.health = 50 ∧ (30:ℚ) ≤ aC5.social_needs ∧
    ((aC5.daily_update 5 10 false).1).health = 85/2 ∧ (50:ℚ) - 85/2 ≠ 5 := by
  refine ⟨?_, ?_, ?_, ?_, by norm_num⟩
  · norm_num [aC5, Animal.hunger, clamp]
  · norm_num [aC5, Animal.health, clamp]
  · norm_num [aC5]
  · norm_num [Animal.daily_update, Animal.physStep, Animal.stepAgeHunger,
      Animal.stepHappinessFromHunger, Animal.stepHealthFromHunger, Animal.stepSocial,
      Animal.setHunger, Animal.setHappiness, Animal.setHealth, Animal.hunger,
      Animal.happiness, Animal.health, clamp, aC5]

/-- Witness for the amended C5 at hunger draw 5: the health after the
update is exactly 50 − (95−80)/2 = 42.5. -/
theorem c5_very_hungry_health_drop_witness :
    ((aC5.daily_update 5 10 false).1).health = 50 - (min 100 ((90:ℚ) + 5) - 80) * (1/2) :=
  c5_very_hungry_health_drop aC5 5 10 false
    (by norm_num [aC5, Animal.hunger, clamp])
    (by norm_num [aC5, Animal.health, clamp])
    (by norm_num) (by norm_num)

/-! ### Claim C1 -/

/-- The heatwave branch with an unaffordable cooling bill: the
cleanliness and happiness effects are applied, but the unguarded
`add_expense(200, ...)` raises `InsufficientFundsError`, which
propagates with the partially mutated state — the heatwave log line is
never written and the ledger is untouched. -/
lemma handle_heatwave_insufficient (z : Zoo) (r don : ℚ) (i j : ℕ)
    (h1 : r < 6/100) (h2 : 200 > z.finance_manager.balance) :
    z.handle_random_events r don i j = Except.error (OzErr.insufficientFunds,
      { z with enclosures := z.enclosures.map (fun e =>
        { e with
          cleanliness := e.cleanliness - 15
          animals := e.animals.map (fun a => a.setHappiness (a.happiness - 10)) }) }) := by
  unfold Zoo.handle_random_events
  rw [if_pos h1]
  dsimp only
  rw [show z.finance_manager.add_expense 200 ("Heatwave emergency cooling") =
    Except.error OzErr.insufficientFunds from by
      unfold FinanceManager.add_expense
      rw [if_pos h2]]

/-- Outside the heatwave band `handle_random_events` never raises: the
donation branch cannot fail and the escape-repair debit failure is
swallowed by `except InsufficientFundsError: pass`. -/
lemma handle_no_error_outside_heatwave (z : Zoo) (r don : ℚ) (i j : ℕ)
    (h : 6/100 ≤ r) : ∀ p : OzErr × Zoo, z.handle_random_events r don i j ≠ Except.error p := by
  intro p
  unfold Zoo.handle_random_events
  rw [if_neg (not_lt.mpr h)]
  split_ifs with h2 h3
  · simp
  · simp
  · rcases hge : z.enclosures.get? i with _ | e0
    · simp
    · dsimp only
      rcases hga : e0.animals.get? j with _ | a0
      · simp
      · dsimp only
        simp only [log_event_finance]
        rcases hexp : z.finance_manager.add_expense 50 ("Escape incident repairs")
          with err | fm <;> simp
  · simp

/-- An error raised inside `handle_random_events` propagates out of
`daily_operations` (nothing catches it; `AdvanceDay` raises). -/
lemma daily_operations_error_of_events (z : Zoo) (d : TickDraws) (z2 : Zoo)
    (p : OzErr × Zoo)
    (hep : (z.visitorPhase d).enclosurePhase d = Except.ok z2)
    (hre : z2.handle_random_events d.eventRoll d.donationAmount d.escapeEncIdx
      d.escapeAnimalIdx = Except.error p) :
    z.daily_operations d = Except.error p := by
  unfold Zoo.daily_operations
  rw [hep]
  dsimp only
  rw [hre]

/-- Claim C1 (amended): only the escape-scare repair debit is silently
absorbed.  The heatwave cooling debit is unguarded: when 200 exceeds
the balance the tick raises `InsufficientFunds` (the heatwave's
cleanliness and happiness effects are applied before the raise, but
its log entry is not written and the ledger is unchanged), and the
error propagates out of `AdvanceDay`.  Outside the heatwave band the
event phase never raises. -/
theorem c1_event_debit_absorption (z : Zoo) (r don : ℚ) (i j : ℕ) :
    (r < 6/100 → 200 > z.finance_manager.balance →
      z.handle_random_events r don i j = Except.error (OzErr.insufficientFunds,
        { z with enclosures := z.enclosures.map (fun e =>
          { e with
            cleanliness := e.cleanliness - 15
            animals := e.animals.map (fun a => a.setHappiness (a.happiness - 10)) }) })) ∧
    (6/100 ≤ r → ∀ p : OzErr × Zoo, z.handle_random_events r don i j ≠ Except.error p) ∧
    (∀ (d : TickDraws) (z2 : Zoo) (p : OzErr × Zoo),
      (z.visitorPhase d).enclosurePhase d = Except.ok z2 →
      z2.handle_random_events d.eventRoll d.donationAmount d.escapeEncIdx d.escapeAnimalIdx =
        Except.error p →
      z.daily_operations d = Except.error p) :=
  ⟨fun h1 h2 => handle_heatwave_insufficient z r don i j h1 h2,
    fun h => handle_no_error_outside_heatwave z r don i j h,
    fun d z2 p hep hre => daily_operations_error_of_events z d z2 p hep hre⟩

/-- Draws identical to `drawsW` except that the event roll lands in the
heatwave band. -/
def dC1 : TickDraws :=
  { visitorCount := 0, visitorBudget := fun _ => 10, visitorEnc := fun _ => 0,
    visitorSpendFactor := fun _ => 5, hungerInc := fun _ => 5, babySexF := fun _ => false,
    eventRoll := 1/100, donationAmount := 0, escapeEncIdx := 0, escapeAnimalIdx := 0 }

lemma zEmpty_visitor_c1 : zEmptyW.visitorPhase dC1 = zEmptyV := by
  simp only [Zoo.visitorPhase, Zoo.waveSpend, Zoo.log_event, FinanceManager.add_income,
    dC1, zEmptyW, zEmptyV, logW]
  norm_num

lemma zEmpty_enclosures_c1 : zEmptyV.enclosurePhase dC1 = Except.ok zEmptyV := rfl

/-- Counterexample for C1 as frozen: with a balance of 0 (below the
flat 200 heatwave cooling cost) and a heatwave roll, the tick does NOT
absorb the failure — `daily_operations` raises `InsufficientFunds`,
so `AdvanceDay` errors, contradicting the claim. -/
theorem c1_heatwave_not_absorbed_cex :
    zEmptyW.finance_manager.balance = 0 ∧ dC1.eventRoll < 6/100 ∧
    Zoo.daily_operations zEmptyW dC1 = Except.error (OzErr.insufficientFunds, zEmptyV) := by
  refine ⟨rfl, by norm_num [dC1], ?_⟩
  refine daily_operations_error_of_events zEmptyW dC1 zEmptyV _ ?_ ?_
  · rw [zEmpty_visitor_c1]
    exact zEmpty_enclosures_c1
  · rw [show dC1.eventRoll = 1/100 from rfl]
    rw [handle_heatwave_insufficient zEmptyV (1/100) dC1.donationAmount dC1.escapeEncIdx
      dC1.escapeAnimalIdx (by norm_num) (by norm_num [zEmptyV, zEmptyW])]
    rfl

/-- Witness for the amended C1: the heatwave part instantiated at the
concrete empty zoo with balance 0, and the no-error part at an
event roll of 1/2. -/
theorem c1_event_debit_absorption_witness :
    (zEmptyV.handle_random_events (1/100) 0 0 0 = Except.error (OzErr.insufficientFunds,
      { zEmptyV with enclosures := zEmptyV.enclosures.map (fun e =>
        { e with
          cleanliness := e.cleanliness - 15
          animals := e.animals.map (fun a => a.setHappiness (a.happiness - 10)) }) })) ∧
    (zEmptyV.handle_random_events (1/2) 0 0 0 ≠
      Except.error (OzErr.insufficientFunds, zEmptyV)) :=
  ⟨(c1_event_debit_absorption zEmptyV (1/100) 0 0 0).1 (by norm_num)
      (by norm_num [zEmptyV, zEmptyW]),
    (c1_event_debit_absorption zEmptyV (1/2) 0 0 0).2.1 (by norm_num)
      (OzErr.insufficientFunds, zEmptyV)⟩

/-! ### Claim C10 -/

/-- Claim C10 (amended): in the escape band the engine picks one
habitat uniformly among ALL habitats (not among the non-empty ones).
If the chosen habitat is non-empty, its chosen resident loses 20
happiness (clamped), the scare is logged, and the flat 50 repair debit
is attempted with failure silently absorbed; if the chosen habitat is
empty, nothing at all happens — even when other habitats have
residents. -/
theorem c10_escape_scare (z : Zoo) (r don : ℚ) (i j : ℕ) (e : Enclosure) (a : Animal)
    (hr1 : 12/100 ≤ r) (hr2 : r < 18/100) (he : z.enclosures.get? i = some e) :
    (e.animals = [] → z.handle_random_events r don i j = Except.ok z) ∧
    (e.animals.get? j = some a →
      z.handle_random_events r don i j = Except.ok
        { z with
          enclosures := z.enclosures.set i
            { e with animals := e.animals.set j (a.setHappiness (a.happiness - 20)) }
          event_log := z.event_log ++
            ["Day " ++ toString z.day ++ ": " ++
              (a.name ++ " had an escape scare and is stressed.")]
          finance_manager :=
            if (50:ℚ) ≤ z.finance_manager.balance then
              { z.finance_manager with
                balance := z.finance_manager.balance - 50
                expense_history := z.finance_manager.expense_history ++
                  [((50:ℚ), "Escape incident repairs")] }
            else z.finance_manager }) := by
  have hn1 : ¬ r < 6/100 := not_lt.mpr (by linarith)
  have hn2 : ¬ r < 12/100 := not_lt.mpr hr1
  constructor
  · intro h0
    unfold Zoo.handle_random_events
    rw [if_neg hn1, if_neg hn2, if_pos hr2, he]
    dsimp only
    rw [h0]
    rfl
  · intro hj
    unfold Zoo.handle_random_events
    rw [if_neg hn1, if_neg hn2, if_pos hr2, he]
    dsimp only
    rw [hj]
    dsimp only
    simp only [log_event_finance]
    by_cases hbal : (50:ℚ) ≤ z.finance_manager.balance
    · rw [show z.finance_manager.add_expense 50 ("Escape incident repairs") =
        Except.ok { z.finance_manager with
          balance := z.finance_manager.balance - 50
          expense_history := z.finance_manager.expense_history ++
            [((50:ℚ), "Escape incident repairs")] } from by
          unfold FinanceManager.add_expense
          rw [if_neg (not_lt.mpr hbal)]]
      rw [if_pos hbal]
      rfl
    · rw [show z.finance_manager.add_expense 50 ("Escape incident repairs") =
        Except.error OzErr.insufficientFunds from by
          unfold FinanceManager.add_expense
          rw [if_pos (not_le.mp hbal)]]
      rw [if_neg hbal]
      rfl

/-- A zoo with an empty aviary first and a one-eagle enclosure second. -/
def zC10 : Zoo :=
  { name := "OzZoo", enclosures := [aviaryW, fullEncW], food_inventory := [],
    medicine_inventory := [], finance_manager := ⟨100, [], []⟩, observerSubs := [],
    daily_ticket_price := 25, day := 1, event_log := [], next_id := 10 }

/-- Counterexample for C10 as frozen: the roll 3/20 lies in the escape
band and a non-empty habitat exists, but the habitat-choice draw picks
the empty aviary, so the event does nothing at all — no resident loses
happiness, nothing is logged, no repair debit is attempted. -/
theorem c10_escape_scare_cex :
    (12/100 ≤ (3/20:ℚ) ∧ (3/20:ℚ) < 18/100) ∧
    zC10.enclosures.map (fun e => e.animals.length) = [0, 1] ∧
    zC10.handle_random_events (3/20) 0 0 0 = Except.ok zC10 := by
  refine ⟨⟨by norm_num, by norm_num⟩, rfl, ?_⟩
  unfold Zoo.handle_random_events
  rw [if_neg (by norm_num), if_neg (by norm_num), if_pos (by norm_num)]
  rfl

/-- Witness for the amended C10 at the same zoo: choosing the empty
aviary does nothing; choosing the eagle enclosure stresses the eagle,
logs the scare and debits the affordable 50 repair cost. -/
theorem c10_escape_scare_witness :
    (zC10.handle_random_events (3/20) 0 0 0 = Except.ok zC10) ∧
    (zC10.handle_random_events (3/20) 0 1 0 = Except.ok
      { zC10 with
        enclosures := zC10.enclosures.set 1
          { fullEncW with
            animals := fullEncW.animals.set 0 (eagleW.setHappiness (eagleW.happiness - 20)) }
        event_log := zC10.event_log ++
          ["Day " ++ toString zC10.day ++ ": " ++
            (eagleW.name ++ " had an escape scare and is stressed.")]
        finance_manager :=
          if (50:ℚ) ≤ zC10.finance_manager.balance then
            { zC10.finance_manager with
              balance := zC10.finance_manager.balance - 50
              expense_history := zC10.finance_manager.expense_history ++
                [((50:ℚ), "Escape incident repairs")] }
          else zC10.finance_manager }) :=
  ⟨(c10_escape_scare zC10 (3/20) 0 0 0 aviaryW eagleW (by norm_num) (by norm_num) rfl).1 rfl,
    (c10_escape_scare zC10 (3/20) 0 1 0 fullEncW eagleW (by norm_num) (by norm_num) rfl).2 rfl⟩

/-- Food the koala refuses. -/
def foodMeatW : Food := { food_type := "meaty_food", nutrition_value := 25, cost := 0 }

/-- Food the koala accepts. -/
def foodEucW : Food := { food_type := "eucalyptus", nutrition_value := 20, cost := 0 }

/-- Witness for C6: the koala refuses meat (hunger and happiness each
drop by 5, health untouched) and accepts eucalyptus (the nutritional
formulas apply). -/
theorem c6_feed_witness :
    ((koalaW.feed foodMeatW).hunger = max 0 (koalaW.hunger - 5) ∧
      (koalaW.feed foodMeatW).happiness = max 0 (koalaW.happiness - 5) ∧
      (koalaW.feed foodMeatW).health = koalaW.health) ∧
    ((koalaW.feed foodEucW).hunger = clamp (koalaW.hunger - foodEucW.nutrition_value) ∧
      (koalaW.feed foodEucW).happiness =
        clamp (koalaW.happiness + min 10 (foodEucW.nutrition_value * (3/10))) ∧
      (koalaW.feed foodEucW).health =
        clamp (koalaW.health + min 5 (foodEucW.nutrition_value * (1/10)))) :=
  ⟨(c6_feed koalaW foodMeatW).1 (by decide), (c6_feed koalaW foodEucW).2 (by decide)⟩
